import Mathlib

/-!
# rekuest: a configurable one-shot HTTP request helper

Shallow embedding of `errors.go`, `options.go` and `http.go`.

* Go strings and byte slices are lists of byte values.
* Caller-owned objects reached through pointers live in a heap indexed by
  address; the caller's `http.Client` objects live in a store of their own and
  dump sinks in another.
* The standard-library collaborators (URL parser, JSON codec, request
  constructor, wire dumps, transport) are the fields of `Env`.
* `HTTPRequest` returns the two Go results, the world after the call and the
  list of observable steps it performed (option applications, transport
  invocations, response dumps, body reads, decodes).
* Dump sinks and clients are objects other than the decode and capture
  targets: a sink or a client that is at the same time a decode target is not
  among the inputs of this model.
-/

namespace Rekuest

/-! ## Strings, errors, dynamic values -/

/-- Go strings and byte slices: a list of byte values. -/
abbrev Bytes := List Nat

/-- The bytes of an ASCII literal of the source. -/
def ascii (s : String) : Bytes := s.toList.map Char.toNat

/-- Go error values. `sentinel` is a package-level error variable, `errorf` an
error made on the spot by `fmt.Errorf` (its argument is the error text), `join`
the result of `errors.Join` on two non-nil errors, `external` an error produced
by a collaborator or by an option function. -/
inductive GoError where
  | sentinel (text : Bytes)
  | errorf (text : Bytes)
  | join (a b : GoError)
  | external (id : Nat)
  deriving DecidableEq, Repr

/-- errors.go: `ErrInvalidOption = fmt.Errorf("httprequest: invalid parameter")`. -/
def ErrInvalidOption : GoError := GoError.sentinel (ascii "httprequest: invalid parameter")

/-- errors.go: `ErrTimeout = fmt.Errorf("httprequest: timeout")`. -/
def ErrTimeout : GoError := GoError.sentinel (ascii "httprequest: timeout")

/-- Go `errors.Is`: the error is the target, or is a join one of whose parts
wraps the target. -/
def errorsIs : GoError → GoError → Bool
  | GoError.join a b, t => decide (GoError.join a b = t) || errorsIs a t || errorsIs b t
  | GoError.sentinel x, t => decide (GoError.sentinel x = t)
  | GoError.errorf x, t => decide (GoError.errorf x = t)
  | GoError.external x, t => decide (GoError.external x = t)

/-- A Go value of static type `any`: the nil interface, a value of pointer kind
(`none` is a typed nil pointer, `some r` points to the heap object at address
`r`), or a value of any other kind. -/
inductive GoAny where
  | nil
  | pointer (ref : Option Nat)
  | value (v : Nat)
  deriving DecidableEq, Repr

/-- The test `reflect.TypeOf(x).Kind() == reflect.Pointer`, for a non-nil `x`. -/
def isPointerKind : GoAny → Bool
  | GoAny.pointer _ => true
  | _ => false

/-- Go `http.Header` and `url.Values`: a map from a key to the list of its
values, kept as an association list with distinct keys. -/
abbrev Values := List (Bytes × List Bytes)

/-- Go `Values.Add` / `Header.Add` on an already canonical key:
`v[key] = append(v[key], value)`. -/
def valuesAdd : Values → Bytes → Bytes → Values
  | [], key, val => [(key, [val])]
  | (k, vs) :: rest, key, val =>
    if k = key then (k, vs ++ [val]) :: rest else (k, vs) :: valuesAdd rest key val

/-! ## Canonical query encoding (net/url) -/

/-- Upper-case hexadecimal digit of `n % 16`, as in net/url `upperhex`. -/
def upperhex (n : Nat) : Nat :=
  if n % 16 < 10 then 48 + n % 16 else 55 + n % 16

/-- Bytes net/url leaves alone in a query component: letters, digits and the
four marks `-`, `_`, `.`, `~`. -/
def unreserved (c : Nat) : Bool :=
  (97 ≤ c && c ≤ 122) || (65 ≤ c && c ≤ 90) || (48 ≤ c && c ≤ 57) ||
    c = 45 || c = 95 || c = 46 || c = 126

/-- Go `url.QueryEscape`. -/
def queryEscape : Bytes → Bytes
  | [] => []
  | c :: cs =>
    if unreserved c then c :: queryEscape cs
    else if c = 32 then 43 :: queryEscape cs
    else 37 :: upperhex (c / 16) :: upperhex c :: queryEscape cs

/-- Lexicographic byte order on Go strings, `a < b`. -/
def bytesLt : Bytes → Bytes → Bool
  | [], [] => false
  | [], _ :: _ => true
  | _ :: _, [] => false
  | a :: as, b :: bs => a < b || (a = b && bytesLt as bs)

/-- Insertion of one map entry into a list of entries sorted by key. -/
def insertByKey (e : Bytes × List Bytes) : Values → Values
  | [] => [e]
  | x :: xs => if bytesLt e.1 x.1 then e :: x :: xs else x :: insertByKey e xs

/-- The entries of a map in the order of `slices.Sort(keys)`. -/
def sortByKey : Values → Values
  | [] => []
  | x :: xs => insertByKey x (sortByKey xs)

/-- The `key=value` items of one key, in the order of its values. -/
def encodeKey (k : Bytes) : List Bytes → List Bytes
  | [] => []
  | v :: vs => (queryEscape k ++ [61] ++ queryEscape v) :: encodeKey k vs

/-- The items joined by `&`. -/
def joinAmp : List Bytes → Bytes
  | [] => []
  | [x] => x
  | x :: y :: rest => x ++ [38] ++ joinAmp (y :: rest)

/-- The `key=value` items of a map, keys sorted. -/
def encodeItems (v : Values) : List Bytes :=
  (sortByKey v).flatMap (fun kv => encodeKey kv.1 kv.2)

/-- Go `url.Values.Encode`: keys sorted, each value written as
`QueryEscape(key)=QueryEscape(value)`, items separated by `&`. -/
def valuesEncode (v : Values) : Bytes :=
  joinAmp (encodeItems v)

/-! ## options.go -/

/-- options.go `customErrorCapturer`. -/
structure customErrorCapturer where
  capturer : GoAny
  successCode : Int
  deriving DecidableEq, Repr

/-- options.go `option`: the configuration snapshot. Absent fields are Go nil.
Sinks, the redirect hook, the client, the header-capture target and the context
are named by their address or identity. -/
structure option where
  header : Option Values
  query : Option Values
  customPayload : GoAny
  requestDump : Option Nat
  responseDump : Option Nat
  redirectInterceptor : Option Nat
  httpResponseHeaderCapture : Option Nat
  customErrResponse : Option customErrorCapturer
  customClient : Option Nat
  context : Option Nat
  deriving DecidableEq, Repr

/-- The zero value `&option{}` of http.go line 26. -/
def emptyOption : option :=
  { header := none, query := none, customPayload := GoAny.nil, requestDump := none,
    responseDump := none, redirectInterceptor := none, httpResponseHeaderCapture := none,
    customErrResponse := none, customClient := none, context := none }

/-- options.go `type Option func(*option) error`: the snapshot after the call
and the returned error (`none` is Go nil). -/
abbrev OptionFunc := option → option × Option GoError

/-- options.go `WithHeader`; `canon` is `textproto.CanonicalMIMEHeaderKey`,
which `Header.Add` applies to the key. -/
def WithHeader (canon : Bytes → Bytes) (key val : Bytes) : OptionFunc := fun o =>
  let h : Values := match o.header with
    | none => []
    | some h => h
  ({ o with header := some (valuesAdd h (canon key) val) }, none)

/-- options.go `WithQuery`. -/
def WithQuery (key val : Bytes) : OptionFunc := fun o =>
  let q : Values := match o.query with
    | none => []
    | some q => q
  ({ o with query := some (valuesAdd q key val) }, none)

/-- options.go `WithRequestDump`. -/
def WithRequestDump (buf : Option Nat) : OptionFunc := fun o =>
  ({ o with requestDump := buf }, none)

/-- options.go `WithResponseDump`. -/
def WithResponseDump (buf : Option Nat) : OptionFunc := fun o =>
  ({ o with responseDump := buf }, none)

/-- options.go `WithJSON`. -/
def WithJSON (payload : GoAny) : OptionFunc := fun o =>
  ({ o with customPayload := payload }, none)

/-- options.go `WithHTTPRedirectIntercept`. -/
def WithHTTPRedirectIntercept (c : Option Nat) : OptionFunc := fun o =>
  ({ o with redirectInterceptor := c }, none)

/-- options.go `WithHTTPResponseHeaderCapture`. -/
def WithHTTPResponseHeaderCapture (h : Option Nat) : OptionFunc := fun o =>
  ({ o with httpResponseHeaderCapture := h }, none)

/-- The text both failure branches of `WithCustomErrorResponse` pass to
`fmt.Errorf`. -/
def captureMessage : Bytes :=
  ascii "WithCustomErrorResponse needs a pointer type to capture the output"

/-- options.go `WithCustomErrorResponse`. -/
def WithCustomErrorResponse (capture : GoAny) (successStatus : Int) : OptionFunc := fun o =>
  if capture = GoAny.nil then
    (o, some (GoError.join ErrInvalidOption (GoError.errorf captureMessage)))
  else if isPointerKind capture = false then
    (o, some (GoError.join ErrInvalidOption (GoError.errorf captureMessage)))
  else
    ({ o with customErrResponse := some { capturer := capture, successCode := successStatus } },
      none)

/-- options.go `WithCustomHTTPClient`. -/
def WithCustomHTTPClient (c : Option Nat) : OptionFunc := fun o =>
  ({ o with customClient := c }, none)

/-- options.go `WithContext`. -/
def WithContext (c : Option Nat) : OptionFunc := fun o =>
  ({ o with context := c }, none)

/-! ## The world around one call -/

/-- Go `url.URL`: the query component and everything else. -/
structure URL where
  rawQuery : Bytes
  rest : Bytes
  deriving DecidableEq, Repr

/-- The context a request is built with: `context.Background()` or the one the
caller supplied. -/
inductive Ctx where
  | background
  | user (id : Nat)
  deriving DecidableEq, Repr

/-- Go `http.Request`, as far as `HTTPRequest` sets it. -/
structure Request where
  ctx : Ctx
  method : Bytes
  url : Bytes
  body : Bytes
  header : Values
  deriving DecidableEq, Repr

/-- Go `http.Client`: its redirect-decision hook `CheckRedirect` and the rest of
its settings. -/
structure Client where
  checkRedirect : Option Nat
  settings : Nat
  deriving DecidableEq, Repr

/-- Go `http.Response`. `body` is what reading the body stream to its end
gives: the bytes, or a read error. -/
structure Response where
  statusCode : Int
  header : Values
  body : Except GoError Bytes

/-- The contents of a caller-owned object: a `ResponseHeaderCapturer`, or any
other value. -/
inductive GoValue where
  | headerCapturer (header : Values)
  | data (v : Nat)
  deriving DecidableEq, Repr

/-- The collaborators of `HTTPRequest`, all from the Go standard library. -/
structure Env where
  /-- Go `textproto.CanonicalMIMEHeaderKey`. -/
  canonicalHeaderKey : Bytes → Bytes
  /-- Go `url.Parse`. -/
  urlParse : Bytes → Except GoError URL
  /-- Go `(*url.URL).String`. -/
  urlString : URL → Bytes
  /-- Go `json.NewEncoder(buf).Encode(v)`: the bytes written, or the error. -/
  jsonEncode : GoAny → (Nat → GoValue) → Except GoError Bytes
  /-- Go `http.NewRequestWithContext`: the error it returns, if any. -/
  newRequestError : Ctx → Bytes → Bytes → Bytes → Option GoError
  /-- Go `httputil.DumpRequest(req, true)`. -/
  dumpRequest : Request → Except GoError Bytes
  /-- Go `(*http.Client).Do`. -/
  clientDo : Client → Request → Except GoError Response
  /-- Go `httputil.DumpResponse(resp, true)`: the dump or the error, and the
  body the response carries afterwards. -/
  dumpResponse : Response → Except GoError Bytes × Except GoError Bytes
  /-- Go `json.Unmarshal` into a non-nil pointer to the object at an address:
  the caller's objects afterwards (the decoder writes the target and whatever
  it reaches through the target's pointer fields) and the error. -/
  jsonUnmarshal : Bytes → Nat → (Nat → GoValue) → (Nat → GoValue) × Option GoError
  /-- The error of `json.Unmarshal` when the target is not a non-nil pointer. -/
  unmarshalBadTarget : Bytes → GoAny → GoError

/-- What a call can change: caller-owned objects by address, the caller's
clients by address, and what each dump sink has received. -/
structure World where
  heap : Nat → GoValue
  clients : Nat → Client
  sinks : Nat → Bytes

/-- The observable steps of one call, in order. -/
inductive Event where
  | applyOption (index : Nat) (snapshot : option)
  | send (client : Client) (request : Request)
  | println (err : GoError)
  | dumpResponse (response : Response)
  | readAll (result : Except GoError Bytes)
  | unmarshal (data : Bytes) (target : GoAny)

/-- The two results of `HTTPRequest`, the world it leaves and its steps. -/
structure Outcome where
  httpStatus : Int
  e : Option GoError
  world : World
  events : List Event

/-- Assignment at one address. -/
def update {α : Type} (f : Nat → α) (a : Nat) (v : α) : Nat → α :=
  fun x => if x = a then v else f x

/-! ## http.go -/

/-- The text `HTTPRequest` passes to `fmt.Errorf` for a destination that is not
a pointer. -/
def respMessage : Bytes :=
  ascii "resp must be a pointer type. If you meant to ignore the response, use nil instead"

/-- http.go lines 26-32: the loop over the options, from option number `idx`
on snapshot `o`. Returns the first error or the final snapshot, and the
applications made. -/
def applyOptions : List OptionFunc → Nat → option → Except GoError option × List Event
  | [], _, o => (Except.ok o, [])
  | apply :: rest, idx, o =>
    match (apply o).2 with
    | some err => (Except.error err, [Event.applyOption idx o])
    | none =>
      let r := applyOptions rest (idx + 1) (apply o).1
      (r.1, Event.applyOption idx o :: r.2)

/-- http.go lines 40-42: a configured query map replaces the query of the
parsed URL. -/
def setQuery (appliedOptions : option) (target : URL) : URL :=
  match appliedOptions.query with
  | some q => { target with rawQuery := valuesEncode q }
  | none => target

/-- http.go lines 45-54: the request body. The test of `err` on line 47 reads
the error of `url.Parse`, which is nil here. -/
def encodePayload (env : Env) (appliedOptions : option) (w : World) : Except GoError Bytes :=
  if appliedOptions.customPayload = GoAny.nil then Except.ok []
  else env.jsonEncode appliedOptions.customPayload w.heap

/-- http.go lines 57-62. -/
def resolveContext (appliedOptions : option) : Ctx :=
  match appliedOptions.context with
  | some c => Ctx.user c
  | none => Ctx.background

/-- http.go lines 65-73: the request object, its headers replaced by the
configured ones. -/
def buildRequest (appliedOptions : option) (ctx : Ctx) (method url payload : Bytes) : Request :=
  { ctx := ctx, method := method, url := url, body := payload,
    header := match appliedOptions.header with
      | some h => h
      | none => [] }

/-- The line `fmt.Fprintf` writes for a dump: the banner, a newline, the dump,
two newlines. -/
def dumpText (banner : String) (b : Bytes) : Bytes :=
  ascii banner ++ [10] ++ b ++ [10, 10]

/-- http.go lines 76-83: the request dump. -/
def stepDumpRequest (env : Env) (appliedOptions : option) (httpReq : Request) (w : World) :
    World × List Event :=
  match appliedOptions.requestDump with
  | none => (w, [])
  | some sink =>
    match env.dumpRequest httpReq with
    | Except.error err => (w, [Event.println err])
    | Except.ok b =>
      ({ w with sinks := update w.sinks sink (w.sinks sink ++ dumpText "REQUEST ======" b) }, [])

/-- http.go lines 86-91: the caller's client or a new one. -/
def resolveClient (appliedOptions : option) (w : World) : Client :=
  match appliedOptions.customClient with
  | some c => w.clients c
  | none => { checkRedirect := none, settings := 0 }

/-- http.go lines 94-96, the client object used for the request. -/
def installRedirect (appliedOptions : option) (client : Client) : Client :=
  match appliedOptions.redirectInterceptor with
  | some f => { client with checkRedirect := some f }
  | none => client

/-- http.go lines 94-96, the effect on the caller's own client: the hook is
written through the pointer the caller supplied. -/
def storeClient (appliedOptions : option) (w : World) : World :=
  match appliedOptions.customClient, appliedOptions.redirectInterceptor with
  | some c, some f =>
    { w with clients := update w.clients c { w.clients c with checkRedirect := some f } }
  | _, _ => w

/-- http.go lines 105-112: the response dump. The call
`httputil.DumpResponse(httpResp, true)` of line 106 reads the body of the
response to its end to put it in the dump; it is a step of its own. -/
def stepDumpResponse (env : Env) (appliedOptions : option) (httpResp : Response) (w : World) :
    World × List Event :=
  match appliedOptions.responseDump with
  | none => (w, [])
  | some sink =>
    match (env.dumpResponse httpResp).1 with
    | Except.error err => (w, [Event.dumpResponse httpResp, Event.println err])
    | Except.ok b =>
      ({ w with sinks := update w.sinks sink (w.sinks sink ++ dumpText "RESPONSE ======" b) },
        [Event.dumpResponse httpResp])

/-- The body `io.ReadAll` meets on line 130: the one the transport delivered,
or what `DumpResponse` left in its place when a response dump is configured. -/
def bodyAfterDump (env : Env) (appliedOptions : option) (httpResp : Response) :
    Except GoError Bytes :=
  match appliedOptions.responseDump with
  | none => httpResp.body
  | some _ => (env.dumpResponse httpResp).2

/-- http.go lines 115-117: the response headers are stored in the capture
target. -/
def captureHeader (appliedOptions : option) (httpResp : Response) (heap : Nat → GoValue) :
    Nat → GoValue :=
  match appliedOptions.httpResponseHeaderCapture with
  | some h => update heap h (GoValue.headerCapturer httpResp.header)
  | none => heap

/-- Go `json.Unmarshal(data, v)` on the heap. -/
def unmarshalInto (env : Env) (data : Bytes) (v : GoAny) (heap : Nat → GoValue) :
    (Nat → GoValue) × Option GoError :=
  match v with
  | GoAny.pointer (some r) => env.jsonUnmarshal data r heap
  | _ => (heap, some (env.unmarshalBadTarget data v))

/-- http.go lines 143-147 and 153-156: decode `data` into `target`; on failure
the error is joined with the raw text of the copy. -/
def decodeStep (env : Env) (status : Int) (data copy : Bytes) (target : GoAny) (w : World)
    (events : List Event) : Outcome :=
  match (unmarshalInto env data target w.heap).2 with
  | some err =>
    { httpStatus := status,
      e := some (GoError.join err (GoError.errorf (ascii "response: " ++ copy))),
      world := { w with heap := (unmarshalInto env data target w.heap).1 },
      events := events ++ [Event.unmarshal data target] }
  | none =>
    { httpStatus := status, e := none,
      world := { w with heap := (unmarshalInto env data target w.heap).1 },
      events := events ++ [Event.unmarshal data target] }

/-- http.go lines 120-158: from the nil-destination return to the end. -/
def readAndDecode (env : Env) (appliedOptions : option) (resp : GoAny) (status : Int)
    (body : Except GoError Bytes) (w : World) (events : List Event) : Outcome :=
  if resp = GoAny.nil then
    { httpStatus := status, e := none, world := w, events := events }
  else
    match body with
    | Except.error err =>
      { httpStatus := status, e := some err, world := w,
        events := events ++ [Event.readAll (Except.error err)] }
    | Except.ok b =>
      -- the three buffers filled by the MultiWriter
      let respByte := b
      let respByteCopy := b
      let respByteErrCopy := b
      let events := events ++ [Event.readAll (Except.ok b)]
      match appliedOptions.customErrResponse with
      | some c =>
        if status ≠ c.successCode then
          decodeStep env status respByteErrCopy respByteCopy c.capturer w events
        else
          decodeStep env status respByte respByteCopy resp w events
      | none => decodeStep env status respByte respByteCopy resp w events

/-- http.go lines 105-158: everything after a successful `client.Do`. -/
def handleResponse (env : Env) (appliedOptions : option) (resp : GoAny) (httpResp : Response)
    (w : World) (events : List Event) : Outcome :=
  let d := stepDumpResponse env appliedOptions httpResp w
  let w2 : World := { d.1 with heap := captureHeader appliedOptions httpResp d.1.heap }
  readAndDecode env appliedOptions resp httpResp.statusCode
    (bodyAfterDump env appliedOptions httpResp) w2 (events ++ d.2)

/-- http.go lines 34-158: everything after the options were applied. -/
def execute (env : Env) (method urlEndpoint : Bytes) (resp : GoAny) (appliedOptions : option)
    (w : World) (events : List Event) : Outcome :=
  match env.urlParse urlEndpoint with
  | Except.error err => { httpStatus := 0, e := some err, world := w, events := events }
  | Except.ok parsed =>
    let target := setQuery appliedOptions parsed
    match encodePayload env appliedOptions w with
    | Except.error err => { httpStatus := 0, e := some err, world := w, events := events }
    | Except.ok payload =>
      let ctx := resolveContext appliedOptions
      match env.newRequestError ctx method (env.urlString target) payload with
      | some err => { httpStatus := 0, e := some err, world := w, events := events }
      | none =>
        let httpReq := buildRequest appliedOptions ctx method (env.urlString target) payload
        let d := stepDumpRequest env appliedOptions httpReq w
        let client := installRedirect appliedOptions (resolveClient appliedOptions d.1)
        let w1 := storeClient appliedOptions d.1
        let events := events ++ d.2 ++ [Event.send client httpReq]
        match env.clientDo client httpReq with
        | Except.error err => { httpStatus := 0, e := some err, world := w1, events := events }
        | Except.ok httpResp => handleResponse env appliedOptions resp httpResp w1 events

/-- http.go `HTTPRequest`. -/
def HTTPRequest (env : Env) (method urlEndpoint : Bytes) (resp : GoAny)
    (options : List OptionFunc) (w : World) : Outcome :=
  if resp ≠ GoAny.nil ∧ isPointerKind resp = false then
    { httpStatus := 0,
      e := some (GoError.join ErrInvalidOption (GoError.errorf respMessage)),
      world := w, events := [] }
  else
    match (applyOptions options 0 emptyOption).1 with
    | Except.error err =>
      { httpStatus := 0, e := some err, world := w,
        events := (applyOptions options 0 emptyOption).2 }
    | Except.ok appliedOptions =>
      execute env method urlEndpoint resp appliedOptions w (applyOptions options 0 emptyOption).2

/-! ## Vocabulary of the statements -/

/-- The snapshot after applying the given option functions, in order, each to
the snapshot its predecessor left. -/
def foldSnapshot (fs : List OptionFunc) (o : option) : option :=
  fs.foldl (fun acc f => (f acc).1) o

/-- The snapshot the option at index `n` receives: the first `n` options
applied to the empty snapshot. -/
def snapshotAfter (options : List OptionFunc) (n : Nat) : option :=
  foldSnapshot (options.take n) emptyOption

/-- The snapshot `HTTPRequest` executes with, when every option succeeds. -/
def configure (options : List OptionFunc) : Except GoError option :=
  (applyOptions options 0 emptyOption).1

/-- A step that applies an option. -/
def Event.isApply : Event → Bool
  | Event.applyOption _ _ => true
  | _ => false

/-- A read of the response body by `io.ReadAll`. -/
def Event.isRead : Event → Bool
  | Event.readAll _ => true
  | _ => false

/-- A JSON decode of the response body. -/
def Event.isUnmarshal : Event → Bool
  | Event.unmarshal _ _ => true
  | _ => false

/-- A step that reads the body of the response: `io.ReadAll`, or
`httputil.DumpResponse` with its body flag set. -/
def Event.readsBody : Event → Bool
  | Event.readAll _ => true
  | Event.dumpResponse _ => true
  | _ => false

/-- The world at the moment of `client.Do`: after the request dump and the
installation of the redirect hook. -/
def worldAtSend (env : Env) (appliedOptions : option) (httpReq : Request) (w : World) : World :=
  storeClient appliedOptions (stepDumpRequest env appliedOptions httpReq w).1

/-- The steps up to and including `client.Do`. -/
def eventsAtSend (env : Env) (options : List OptionFunc) (appliedOptions : option)
    (client : Client) (httpReq : Request) (w : World) : List Event :=
  (applyOptions options 0 emptyOption).2 ++ (stepDumpRequest env appliedOptions httpReq w).2 ++
    [Event.send client httpReq]

/-- The target the body is decoded into: the error-capture target when one is
configured and the status differs from its success code, else the destination. -/
def selectedTarget (appliedOptions : option) (resp : GoAny) (status : Int) : GoAny :=
  match appliedOptions.customErrResponse with
  | some c => if status ≠ c.successCode then c.capturer else resp
  | none => resp

/-- A call of one of the ten option constructors of options.go. Outside the
package these are the only way to make an option function, the snapshot type
being unexported. -/
inductive Call where
  | withHeader (key val : Bytes)
  | withQuery (key val : Bytes)
  | withRequestDump (buf : Option Nat)
  | withResponseDump (buf : Option Nat)
  | withJSON (payload : GoAny)
  | withHTTPRedirectIntercept (c : Option Nat)
  | withHTTPResponseHeaderCapture (h : Option Nat)
  | withCustomErrorResponse (capture : GoAny) (successStatus : Int)
  | withCustomHTTPClient (c : Option Nat)
  | withContext (c : Option Nat)
  deriving DecidableEq, Repr

/-- The option function a constructor call returns. -/
def Call.toOption (env : Env) : Call → OptionFunc
  | Call.withHeader key val => WithHeader env.canonicalHeaderKey key val
  | Call.withQuery key val => WithQuery key val
  | Call.withRequestDump buf => WithRequestDump buf
  | Call.withResponseDump buf => WithResponseDump buf
  | Call.withJSON payload => WithJSON payload
  | Call.withHTTPRedirectIntercept c => WithHTTPRedirectIntercept c
  | Call.withHTTPResponseHeaderCapture h => WithHTTPResponseHeaderCapture h
  | Call.withCustomErrorResponse capture successStatus =>
    WithCustomErrorResponse capture successStatus
  | Call.withCustomHTTPClient c => WithCustomHTTPClient c
  | Call.withContext c => WithContext c

/-- The query map after one more constructor call: `WithQuery` adds its pair
(to an empty map if there was none), every other call leaves it alone. -/
def Call.stepQuery (q : Option Values) : Call → Option Values
  | Call.withQuery key val => some (valuesAdd (q.getD []) key val)
  | _ => q

/-- The configured query-parameter map: the pairs of the `WithQuery` calls of
the list, added in order starting from no map. -/
def configuredQuery (calls : List Call) : Option Values :=
  calls.foldl Call.stepQuery none

/-- The map holds the pair: `val` is among the values of `key`. -/
def holdsPair (q : Values) (key val : Bytes) : Prop :=
  ∃ vs, (key, vs) ∈ q ∧ val ∈ vs

/-! ## A concrete world for the examples -/

/-- A URL parser for the examples: a string starting with `:` has no scheme and
is refused, any other is cut at the first `?`. -/
def stubParse (s : Bytes) : Except GoError URL :=
  if s.head? = some 58 then Except.error (GoError.external 1)
  else Except.ok { rest := s.takeWhile (fun c => c ≠ 63),
                   rawQuery := (s.dropWhile (fun c => c ≠ 63)).drop 1 }

/-- The URL writer matching `stubParse`. -/
def stubString (u : URL) : Bytes :=
  if u.rawQuery = [] then u.rest else u.rest ++ [63] ++ u.rawQuery

/-- A JSON decoder for the examples: one decimal digit decodes to its value,
stored in the target; anything else is a syntax error that writes nothing. -/
def stubUnmarshal (data : Bytes) (r : Nat) (heap : Nat → GoValue) :
    (Nat → GoValue) × Option GoError :=
  match data with
  | [d] => if 48 ≤ d ∧ d ≤ 57 then (update heap r (GoValue.data (d - 48)), none)
           else (heap, some (GoError.external 2))
  | _ => (heap, some (GoError.external 2))

/-- The collaborators of the examples; the transport answers every request with
`reply`. -/
def stubEnv (reply : Except GoError Response) : Env :=
  { canonicalHeaderKey := fun k => k,
    urlParse := stubParse,
    urlString := stubString,
    jsonEncode := fun _ _ => Except.ok [123, 125, 10],
    newRequestError := fun _ _ _ _ => none,
    dumpRequest := fun r => Except.ok r.url,
    clientDo := fun _ _ => reply,
    dumpResponse := fun r => (Except.ok [], r.body),
    jsonUnmarshal := stubUnmarshal,
    unmarshalBadTarget := fun _ _ => GoError.external 3 }

/-- The world of the examples: every object holds 0, every client has no
redirect hook, every sink is empty. -/
def stubWorld : World :=
  { heap := fun _ => GoValue.data 0,
    clients := fun _ => { checkRedirect := none, settings := 1 },
    sinks := fun _ => [] }

/-- An option function that always fails with the given error. -/
def failingOption (err : GoError) : OptionFunc := fun o => (o, some err)

/-! ## Lemmas on the option loop -/

theorem applyOptions_fail_at (i : Nat) :
    ∀ (options : List OptionFunc) (idx : Nat) (o : option) (f : OptionFunc) (err : GoError),
      (∀ j g, j < i → options[j]? = some g → (g (foldSnapshot (options.take j) o)).2 = none) →
      options[i]? = some f → (f (foldSnapshot (options.take i) o)).2 = some err →
      applyOptions options idx o =
        (Except.error err,
          (List.range (i + 1)).map
            (fun j => Event.applyOption (idx + j) (foldSnapshot (options.take j) o))) := by
  induction i with
  | zero =>
    intro options idx o f err _ hf herr
    cases options with
    | nil => simp at hf
    | cons g rest =>
      simp at hf
      subst hf
      simp [foldSnapshot] at herr
      simp [applyOptions, herr, foldSnapshot, List.range_succ]
  | succ i ih =>
    intro options idx o f err hbefore hf herr
    cases options with
    | nil => simp at hf
    | cons g rest =>
      have h0 : (g o).2 = none := by
        have := hbefore 0 g (Nat.succ_pos i) (by simp)
        simpa [foldSnapshot] using this
      have hrest := ih rest (idx + 1) (g o).1 f err
        (by
          intro j k hj hk
          have := hbefore (j + 1) k (Nat.succ_lt_succ hj) (by simpa using hk)
          simpa [foldSnapshot] using this)
        (by simpa using hf)
        (by simpa [foldSnapshot] using herr)
      simp only [applyOptions, h0, hrest]
      congr 1
      rw [List.range_succ_eq_map (i + 1)]
      simp [foldSnapshot, Function.comp_def, Nat.add_assoc, Nat.add_comm 1]

theorem applyOptions_events (options : List OptionFunc) :
    ∀ (idx : Nat) (o : option) (ev : Event), ev ∈ (applyOptions options idx o).2 →
      ev.isApply = true := by
  induction options with
  | nil => intro idx o ev h; simp [applyOptions] at h
  | cons g rest ih =>
    intro idx o ev h
    unfold applyOptions at h
    split at h
    · simp at h; subst h; rfl
    · simp at h
      rcases h with h | h
      · subst h; rfl
      · exact ih _ _ _ h

theorem stepDumpRequest_events (env : Env) (o : option) (req : Request) (w : World)
    (ev : Event) (h : ev ∈ (stepDumpRequest env o req w).2) : ∃ err, ev = Event.println err := by
  unfold stepDumpRequest at h
  split at h
  · simp at h
  · split at h
    · simp at h; exact ⟨_, h⟩
    · simp at h

theorem stepDumpRequest_heap (env : Env) (o : option) (req : Request) (w : World) :
    (stepDumpRequest env o req w).1.heap = w.heap ∧
    (stepDumpRequest env o req w).1.clients = w.clients := by
  unfold stepDumpRequest
  split
  · exact ⟨rfl, rfl⟩
  · split <;> exact ⟨rfl, rfl⟩

theorem stepDumpResponse_events (env : Env) (o : option) (r : Response) (w : World)
    (ev : Event) (h : ev ∈ (stepDumpResponse env o r w).2) :
    (∃ err, ev = Event.println err) ∨ ev = Event.dumpResponse r := by
  unfold stepDumpResponse at h
  split at h
  · simp at h
  · split at h
    · simp at h
      rcases h with h | h
      · exact Or.inr h
      · exact Or.inl ⟨_, h⟩
    · simp at h
      exact Or.inr h

theorem stepDumpResponse_heap (env : Env) (o : option) (r : Response) (w : World) :
    (stepDumpResponse env o r w).1.heap = w.heap ∧
    (stepDumpResponse env o r w).1.clients = w.clients := by
  unfold stepDumpResponse
  split
  · exact ⟨rfl, rfl⟩
  · split <;> exact ⟨rfl, rfl⟩

theorem storeClient_heap (o : option) (w : World) : (storeClient o w).heap = w.heap := by
  unfold storeClient
  split <;> rfl

theorem worldAtSend_heap (env : Env) (o : option) (req : Request) (w : World) :
    (worldAtSend env o req w).heap = w.heap := by
  unfold worldAtSend
  rw [storeClient_heap, (stepDumpRequest_heap env o req w).1]

theorem decodeStep_events (env : Env) (status : Int) (data copy : Bytes) (target : GoAny)
    (w : World) (events : List Event) :
    (decodeStep env status data copy target w events).events =
      events ++ [Event.unmarshal data target] ∧
    (decodeStep env status data copy target w events).httpStatus = status ∧
    (decodeStep env status data copy target w events).world.heap =
      (unmarshalInto env data target w.heap).1 ∧
    (decodeStep env status data copy target w events).world.clients = w.clients ∧
    (decodeStep env status data copy target w events).e =
      ((unmarshalInto env data target w.heap).2).map
        (fun err => GoError.join err (GoError.errorf (ascii "response: " ++ copy))) := by
  unfold decodeStep
  split
  · rename_i err h
    simp [h]
  · rename_i h
    simp [h]

/-- The outcome of `readAndDecode` when the destination is not nil and the body
is read as `b`. -/
theorem readAndDecode_ok (env : Env) (o : option) (resp : GoAny) (status : Int) (b : Bytes)
    (w : World) (events : List Event) (hresp : resp ≠ GoAny.nil) :
    readAndDecode env o resp status (Except.ok b) w events =
      decodeStep env status b b (selectedTarget o resp status) w
        (events ++ [Event.readAll (Except.ok b)]) := by
  unfold readAndDecode selectedTarget
  rw [if_neg hresp]
  cases h : o.customErrResponse with
  | none => rfl
  | some c =>
    by_cases hs : status ≠ c.successCode
    · simp [hs]
    · simp [hs]

theorem readAndDecode_status (env : Env) (o : option) (resp : GoAny) (status : Int)
    (body : Except GoError Bytes) (w : World) (events : List Event) :
    (readAndDecode env o resp status body w events).httpStatus = status ∧
    (readAndDecode env o resp status body w events).world.clients = w.clients ∧
    (∀ cl req, Event.send cl req ∈ (readAndDecode env o resp status body w events).events →
      Event.send cl req ∈ events) := by
  by_cases hresp : resp = GoAny.nil
  · simp [readAndDecode, hresp]
  · cases body with
    | error err => simp [readAndDecode, hresp]
    | ok b =>
      rw [readAndDecode_ok env o resp status b w events hresp]
      have h := decodeStep_events env status b b (selectedTarget o resp status) w
        (events ++ [Event.readAll (Except.ok b)])
      refine ⟨h.2.1, h.2.2.2.1, ?_⟩
      intro cl req hmem
      rw [h.1] at hmem
      simpa using hmem

theorem handleResponse_status (env : Env) (o : option) (resp : GoAny) (r : Response)
    (w : World) (events : List Event) :
    (handleResponse env o resp r w events).httpStatus = r.statusCode ∧
    (handleResponse env o resp r w events).world.clients = w.clients ∧
    (∀ cl req, Event.send cl req ∈ (handleResponse env o resp r w events).events →
      Event.send cl req ∈ events) := by
  unfold handleResponse
  have h := readAndDecode_status env o resp r.statusCode (bodyAfterDump env o r)
    { (stepDumpResponse env o r w).1 with
      heap := captureHeader o r (stepDumpResponse env o r w).1.heap }
    (events ++ (stepDumpResponse env o r w).2)
  refine ⟨h.1, ?_, ?_⟩
  · rw [h.2.1]
    exact (stepDumpResponse_heap env o r w).2
  · intro cl req hmem
    have h2 := h.2.2 cl req hmem
    rcases List.mem_append.mp h2 with h3 | h3
    · exact h3
    · rcases stepDumpResponse_events env o r w _ h3 with ⟨err, herr⟩ | herr <;> cases herr

theorem handleResponse_mono (env : Env) (o : option) (resp : GoAny) (r : Response)
    (w : World) (events : List Event) (ev : Event) (h : ev ∈ events) :
    ev ∈ (handleResponse env o resp r w events).events := by
  unfold handleResponse readAndDecode
  simp only
  split
  · exact List.mem_append_left _ h
  · split
    · exact List.mem_append_left _ (List.mem_append_left _ h)
    · split
      · split
        · rw [(decodeStep_events _ _ _ _ _ _ _).1]
          exact List.mem_append_left _ (List.mem_append_left _ (List.mem_append_left _ h))
        · rw [(decodeStep_events _ _ _ _ _ _ _).1]
          exact List.mem_append_left _ (List.mem_append_left _ (List.mem_append_left _ h))
      · rw [(decodeStep_events _ _ _ _ _ _ _).1]
        exact List.mem_append_left _ (List.mem_append_left _ (List.mem_append_left _ h))

/-- The one way a transport step gets into the steps of `execute`: the URL
parsed, the payload was encoded, the request was built, and the rest of the
call is decided by what `client.Do` returned. -/
theorem execute_send (env : Env) (method urlEndpoint : Bytes) (resp : GoAny) (o : option)
    (w : World) (events : List Event) (cl : Client) (req : Request)
    (hno : Event.send cl req ∉ events)
    (h : Event.send cl req ∈ (execute env method urlEndpoint resp o w events).events) :
    ∃ parsed payload,
      env.urlParse urlEndpoint = Except.ok parsed ∧
      encodePayload env o w = Except.ok payload ∧
      env.newRequestError (resolveContext o) method (env.urlString (setQuery o parsed)) payload
        = none ∧
      req = buildRequest o (resolveContext o) method (env.urlString (setQuery o parsed)) payload ∧
      cl = installRedirect o (resolveClient o w) ∧
      execute env method urlEndpoint resp o w events =
        (match env.clientDo cl req with
         | Except.error err =>
           { httpStatus := 0, e := some err, world := worldAtSend env o req w,
             events := events ++ (stepDumpRequest env o req w).2 ++ [Event.send cl req] }
         | Except.ok httpResp =>
           handleResponse env o resp httpResp (worldAtSend env o req w)
             (events ++ (stepDumpRequest env o req w).2 ++ [Event.send cl req])) := by
  unfold execute at h ⊢
  cases hp : env.urlParse urlEndpoint with
  | error err => simp [hp] at h; exact absurd h hno
  | ok parsed =>
    simp only [hp] at h ⊢
    cases he : encodePayload env o w with
    | error err => simp [he] at h; exact absurd h hno
    | ok payload =>
      simp only [he] at h ⊢
      cases hn : env.newRequestError (resolveContext o) method
          (env.urlString (setQuery o parsed)) payload with
      | some err => simp [hn] at h; exact absurd h hno
      | none =>
        simp only [hn] at h ⊢
        have hcl : resolveClient o (stepDumpRequest env o (buildRequest o (resolveContext o)
            method (env.urlString (setQuery o parsed)) payload) w).1 = resolveClient o w := by
          unfold resolveClient
          rw [(stepDumpRequest_heap env o _ w).2]
        rw [hcl] at h ⊢
        have key : cl = installRedirect o (resolveClient o w) ∧
            req = buildRequest o (resolveContext o) method
              (env.urlString (setQuery o parsed)) payload := by
          have hmem : Event.send cl req ∈ events ++ (stepDumpRequest env o (buildRequest o
              (resolveContext o) method (env.urlString (setQuery o parsed)) payload) w).2 ++
              [Event.send (installRedirect o (resolveClient o w)) (buildRequest o
              (resolveContext o) method (env.urlString (setQuery o parsed)) payload)] := by
            cases hd : env.clientDo (installRedirect o (resolveClient o w)) (buildRequest o
              (resolveContext o) method (env.urlString (setQuery o parsed)) payload) with
            | error err => simpa [hd] using h
            | ok httpResp =>
              rw [hd] at h
              exact (handleResponse_status env o resp httpResp _ _).2.2 cl req h
          rcases List.mem_append.mp hmem with h1 | h1
          · rcases List.mem_append.mp h1 with h2 | h2
            · exact absurd h2 hno
            · obtain ⟨err, herr⟩ := stepDumpRequest_events env o _ w _ h2
              cases herr
          · simp at h1
            exact h1
        obtain ⟨hc, hr⟩ := key
        subst hc hr
        exact ⟨parsed, payload, rfl, rfl, hn, rfl, rfl, rfl⟩

/-- A transport step among the steps of `HTTPRequest` means that the
destination was valid, every option succeeded, the request was built, and the
rest of the call is decided by what `client.Do` returned. -/
theorem HTTPRequest_send (env : Env) (method urlEndpoint : Bytes) (resp : GoAny)
    (options : List OptionFunc) (w : World) (cl : Client) (req : Request)
    (h : Event.send cl req ∈ (HTTPRequest env method urlEndpoint resp options w).events) :
    (resp = GoAny.nil ∨ isPointerKind resp = true) ∧
    ∃ o parsed payload,
      configure options = Except.ok o ∧
      env.urlParse urlEndpoint = Except.ok parsed ∧
      encodePayload env o w = Except.ok payload ∧
      env.newRequestError (resolveContext o) method (env.urlString (setQuery o parsed)) payload
        = none ∧
      req = buildRequest o (resolveContext o) method (env.urlString (setQuery o parsed)) payload ∧
      cl = installRedirect o (resolveClient o w) ∧
      HTTPRequest env method urlEndpoint resp options w =
        (match env.clientDo cl req with
         | Except.error err =>
           { httpStatus := 0, e := some err, world := worldAtSend env o req w,
             events := eventsAtSend env options o cl req w }
         | Except.ok httpResp =>
           handleResponse env o resp httpResp (worldAtSend env o req w)
             (eventsAtSend env options o cl req w)) := by
  have hno : Event.send cl req ∉ (applyOptions options 0 emptyOption).2 := by
    intro hmem
    have := applyOptions_events options 0 emptyOption _ hmem
    simp [Event.isApply] at this
  unfold HTTPRequest at h ⊢
  by_cases hc : resp ≠ GoAny.nil ∧ isPointerKind resp = false
  · rw [if_pos hc] at h
    simp at h
  · rw [if_neg hc] at h ⊢
    have hdest : resp = GoAny.nil ∨ isPointerKind resp = true := by
      by_cases h1 : resp = GoAny.nil
      · exact Or.inl h1
      · right
        cases hk : isPointerKind resp with
        | true => rfl
        | false => exact absurd ⟨h1, hk⟩ hc
    refine ⟨hdest, ?_⟩
    cases hcfg : (applyOptions options 0 emptyOption).1 with
    | error err =>
      rw [hcfg] at h
      exact absurd h hno
    | ok o =>
      rw [hcfg] at h
      simp only at h ⊢
      obtain ⟨parsed, payload, h1, h2, h3, h4, h5, h6⟩ :=
        execute_send env method urlEndpoint resp o w _ cl req hno h
      exact ⟨o, parsed, payload, hcfg, h1, h2, h3, h4, h5, h6⟩

/-- The same, with the snapshot named. -/
theorem HTTPRequest_after_send (env : Env) (method urlEndpoint : Bytes) (resp : GoAny)
    (options : List OptionFunc) (w : World) (o : option) (cl : Client) (req : Request)
    (hconf : configure options = Except.ok o)
    (h : Event.send cl req ∈ (HTTPRequest env method urlEndpoint resp options w).events) :
    HTTPRequest env method urlEndpoint resp options w =
      (match env.clientDo cl req with
       | Except.error err =>
         { httpStatus := 0, e := some err, world := worldAtSend env o req w,
           events := eventsAtSend env options o cl req w }
       | Except.ok httpResp =>
         handleResponse env o resp httpResp (worldAtSend env o req w)
           (eventsAtSend env options o cl req w)) := by
  obtain ⟨_, o2, parsed, payload, h0, _, _, _, _, _, h6⟩ :=
    HTTPRequest_send env method urlEndpoint resp options w cl req h
  rw [hconf] at h0
  cases h0
  exact h6

/-- Up to the transport call the steps hold no body read and no decode. -/
theorem eventsAtSend_kinds (env : Env) (options : List OptionFunc) (o : option) (cl : Client)
    (req : Request) (w : World) (ev : Event) (h : ev ∈ eventsAtSend env options o cl req w) :
    ev.isRead = false ∧ ev.isUnmarshal = false := by
  unfold eventsAtSend at h
  rcases List.mem_append.mp h with h1 | h1
  · rcases List.mem_append.mp h1 with h2 | h2
    · have := applyOptions_events options 0 emptyOption _ h2
      cases ev <;> simp_all [Event.isApply, Event.isRead, Event.isUnmarshal]
    · obtain ⟨err, herr⟩ := stepDumpRequest_events env o req w _ h2
      subst herr
      exact ⟨rfl, rfl⟩
  · simp at h1
    subst h1
    exact ⟨rfl, rfl⟩

/-- The decoding part of a call: non-nil destination, options succeeded with
snapshot `o`, the transport answered `r`, the body was read as `b`. -/
theorem HTTPRequest_decode (env : Env) (method urlEndpoint : Bytes) (resp : GoAny)
    (options : List OptionFunc) (w : World) (o : option) (cl : Client) (req : Request)
    (r : Response) (b : Bytes)
    (hresp : resp ≠ GoAny.nil)
    (hconf : configure options = Except.ok o)
    (hsend : Event.send cl req ∈ (HTTPRequest env method urlEndpoint resp options w).events)
    (hdo : env.clientDo cl req = Except.ok r)
    (hbody : bodyAfterDump env o r = Except.ok b) :
    (HTTPRequest env method urlEndpoint resp options w).httpStatus = r.statusCode ∧
    (HTTPRequest env method urlEndpoint resp options w).world.heap =
      (unmarshalInto env b (selectedTarget o resp r.statusCode) (captureHeader o r w.heap)).1 ∧
    (HTTPRequest env method urlEndpoint resp options w).e =
      ((unmarshalInto env b (selectedTarget o resp r.statusCode)
          (captureHeader o r w.heap)).2).map
        (fun err => GoError.join err (GoError.errorf (ascii "response: " ++ b))) ∧
    (HTTPRequest env method urlEndpoint resp options w).events =
      eventsAtSend env options o cl req w ++
        (stepDumpResponse env o r (worldAtSend env o req w)).2 ++
        [Event.readAll (Except.ok b)] ++
        [Event.unmarshal b (selectedTarget o resp r.statusCode)] := by
  rw [HTTPRequest_after_send env method urlEndpoint resp options w o cl req hconf hsend, hdo]
  simp only [handleResponse, hbody]
  rw [readAndDecode_ok env o resp r.statusCode b _ _ hresp]
  have h := decodeStep_events env r.statusCode b b (selectedTarget o resp r.statusCode)
    { (stepDumpResponse env o r (worldAtSend env o req w)).1 with
      heap := captureHeader o r (stepDumpResponse env o r (worldAtSend env o req w)).1.heap }
    (eventsAtSend env options o cl req w ++
      (stepDumpResponse env o r (worldAtSend env o req w)).2 ++ [Event.readAll (Except.ok b)])
  simp only [(stepDumpResponse_heap env o r _).1, worldAtSend_heap] at h ⊢
  exact ⟨h.2.1, h.2.2.1, h.2.2.2.2, h.1⟩

theorem filter_isRead_before (env : Env) (options : List OptionFunc) (o : option) (cl : Client)
    (req : Request) (r : Response) (w : World) (p : Event → Bool)
    (hp : ∀ ev, p ev = true → ev.isRead = true ∨ ev.isUnmarshal = true) :
    (eventsAtSend env options o cl req w ++
      (stepDumpResponse env o r (worldAtSend env o req w)).2).filter p = [] := by
  rw [List.filter_eq_nil_iff]
  intro ev hev hpe
  rcases List.mem_append.mp hev with h1 | h1
  · have hk := eventsAtSend_kinds env options o cl req w ev h1
    rcases hp ev hpe with h2 | h2
    · rw [hk.1] at h2; cases h2
    · rw [hk.2] at h2; cases h2
  · rcases stepDumpResponse_events env o r _ _ h1 with ⟨err, herr⟩ | herr <;> subst herr <;>
      rcases hp _ hpe with h2 | h2 <;> cases h2

theorem storeClient_clients_none (o : option) (w : World) (h : o.redirectInterceptor = none) :
    (storeClient o w).clients = w.clients := by
  unfold storeClient
  rw [h]
  cases o.customClient <;> rfl

theorem storeClient_clients_some (o : option) (w : World) (c f : Nat)
    (hc : o.customClient = some c) (hf : o.redirectInterceptor = some f) :
    (storeClient o w).clients =
      update w.clients c { w.clients c with checkRedirect := some f } := by
  unfold storeClient
  rw [hc, hf]

/-- The clients after `execute`: untouched on an early failure, as at the
moment of `client.Do` otherwise. -/
theorem execute_clients (env : Env) (method urlEndpoint : Bytes) (resp : GoAny) (o : option)
    (w : World) (events : List Event) :
    (execute env method urlEndpoint resp o w events).world.clients = w.clients ∨
    (execute env method urlEndpoint resp o w events).world.clients =
      (storeClient o w).clients := by
  unfold execute
  cases hp : env.urlParse urlEndpoint with
  | error err => exact Or.inl rfl
  | ok parsed =>
    simp only
    cases he : encodePayload env o w with
    | error err => exact Or.inl rfl
    | ok payload =>
      simp only
      cases hn : env.newRequestError (resolveContext o) method
          (env.urlString (setQuery o parsed)) payload with
      | some err => exact Or.inl rfl
      | none =>
        simp only
        right
        have hst : ∀ req, (storeClient o (stepDumpRequest env o req w).1).clients =
            (storeClient o w).clients := by
          intro req
          have hcl := (stepDumpRequest_heap env o req w).2
          cases hc : o.customClient <;> cases hf : o.redirectInterceptor <;>
            simp [storeClient, hc, hf, hcl]
        split
        · exact hst _
        · rw [(handleResponse_status env o resp _ _ _).2.1]
          exact hst _

/-- With a valid destination and options that all succeed, `HTTPRequest` is
`execute` on the configured snapshot. -/
theorem HTTPRequest_eq_execute (env : Env) (method urlEndpoint : Bytes) (resp : GoAny)
    (options : List OptionFunc) (w : World) (o : option)
    (hdest : resp = GoAny.nil ∨ isPointerKind resp = true)
    (hconf : configure options = Except.ok o) :
    HTTPRequest env method urlEndpoint resp options w =
      execute env method urlEndpoint resp o w (applyOptions options 0 emptyOption).2 := by
  have hc : ¬ (resp ≠ GoAny.nil ∧ isPointerKind resp = false) := by
    rcases hdest with h | h
    · simp [h]
    · simp [h]
  unfold configure at hconf
  unfold HTTPRequest
  rw [if_neg hc, hconf]

/-- The clients after `HTTPRequest`: untouched, or as at `client.Do`. -/
theorem HTTPRequest_clients (env : Env) (method urlEndpoint : Bytes) (resp : GoAny)
    (options : List OptionFunc) (w : World) :
    (HTTPRequest env method urlEndpoint resp options w).world.clients = w.clients ∨
    ∃ o, configure options = Except.ok o ∧
      (HTTPRequest env method urlEndpoint resp options w).world.clients =
        (storeClient o w).clients := by
  unfold HTTPRequest
  split
  · exact Or.inl rfl
  · cases hcfg : (applyOptions options 0 emptyOption).1 with
    | error err => exact Or.inl rfl
    | ok o =>
      simp only
      rcases execute_clients env method urlEndpoint resp o w
        (applyOptions options 0 emptyOption).2 with h | h
      · exact Or.inl h
      · exact Or.inr ⟨o, hcfg, h⟩

/-- A successful run of the option loop ends with the fold of the options. -/
theorem applyOptions_ok (options : List OptionFunc) :
    ∀ (idx : Nat) (o0 o : option), (applyOptions options idx o0).1 = Except.ok o →
      o = foldSnapshot options o0 := by
  induction options with
  | nil =>
    intro idx o0 o h
    simp [applyOptions] at h
    simp [foldSnapshot, h]
  | cons g rest ih =>
    intro idx o0 o h
    unfold applyOptions at h
    split at h
    · simp at h
    · simp only at h
      have := ih _ _ _ h
      simpa [foldSnapshot] using this

/-- What a constructor call does to the query map of the snapshot. -/
theorem Call.toOption_query_eq (env : Env) (c : Call) (o : option) :
    ((c.toOption env) o).1.query = Call.stepQuery o.query c := by
  cases c with
  | withQuery key val =>
    cases hq : o.query <;> simp [Call.toOption, WithQuery, Call.stepQuery, hq]
  | withCustomErrorResponse capture successStatus =>
    by_cases h1 : capture = GoAny.nil
    · simp [Call.toOption, WithCustomErrorResponse, h1, Call.stepQuery]
    · by_cases h2 : isPointerKind capture = false
      · simp [Call.toOption, WithCustomErrorResponse, h1, h2, Call.stepQuery]
      · simp [Call.toOption, WithCustomErrorResponse, h1, h2, Call.stepQuery]
  | withHeader key val => rfl
  | withRequestDump buf => rfl
  | withResponseDump buf => rfl
  | withJSON payload => rfl
  | withHTTPRedirectIntercept c => rfl
  | withHTTPResponseHeaderCapture h => rfl
  | withCustomHTTPClient c => rfl
  | withContext c => rfl

/-- The query map of the snapshot built by a list of constructor calls. -/
theorem foldSnapshot_query (env : Env) (calls : List Call) :
    ∀ o0 : option, (foldSnapshot (calls.map (Call.toOption env)) o0).query =
      calls.foldl Call.stepQuery o0.query := by
  induction calls with
  | nil => intro o0; rfl
  | cons c rest ih =>
    intro o0
    simp only [List.map_cons, foldSnapshot, List.foldl_cons]
    have := ih ((c.toOption env) o0).1
    simp only [foldSnapshot] at this
    rw [this, Call.toOption_query_eq]

theorem valuesAdd_holds (q : Values) (key val k v : Bytes) :
    holdsPair (valuesAdd q key val) k v ↔ holdsPair q k v ∨ (k = key ∧ v = val) := by
  induction q with
  | nil =>
    simp only [valuesAdd, holdsPair, List.mem_singleton, Prod.mk.injEq, List.not_mem_nil,
      false_and, exists_false, false_or]
    constructor
    · rintro ⟨vs, ⟨hk, hvs⟩, hv⟩
      subst hvs
      exact ⟨hk, by simpa using hv⟩
    · rintro ⟨hk, hv⟩
      exact ⟨[val], ⟨hk, rfl⟩, by simp [hv]⟩
  | cons x xs ih =>
    obtain ⟨k0, vs0⟩ := x
    unfold valuesAdd
    by_cases hk : k0 = key
    · subst hk
      rw [if_pos rfl]
      constructor
      · rintro ⟨vs, hmem, hval⟩
        rcases List.mem_cons.mp hmem with h1 | h1
        · cases h1
          rcases List.mem_append.mp hval with h2 | h2
          · exact Or.inl ⟨vs0, by simp, h2⟩
          · exact Or.inr ⟨rfl, by simpa using h2⟩
        · exact Or.inl ⟨vs, List.mem_cons_of_mem _ h1, hval⟩
      · rintro (⟨vs, hmem, hval⟩ | ⟨hk, hv⟩)
        · rcases List.mem_cons.mp hmem with h1 | h1
          · cases h1
            exact ⟨vs0 ++ [val], by simp, by simp [hval]⟩
          · exact ⟨vs, List.mem_cons_of_mem _ h1, hval⟩
        · subst hk hv
          exact ⟨vs0 ++ [v], by simp, by simp⟩
    · rw [if_neg hk]
      constructor
      · rintro ⟨vs, hmem, hval⟩
        rcases List.mem_cons.mp hmem with h1 | h1
        · cases h1
          exact Or.inl ⟨vs0, by simp, hval⟩
        · rcases ih.mp ⟨vs, h1, hval⟩ with ⟨ws, hw, hv⟩ | h2
          · exact Or.inl ⟨ws, List.mem_cons_of_mem _ hw, hv⟩
          · exact Or.inr h2
      · rintro (⟨vs, hmem, hval⟩ | h2)
        · rcases List.mem_cons.mp hmem with h1 | h1
          · cases h1
            exact ⟨vs0, by simp, hval⟩
          · obtain ⟨ws, hw, hv⟩ := ih.mpr (Or.inl ⟨vs, h1, hval⟩)
            exact ⟨ws, List.mem_cons_of_mem _ hw, hv⟩
        · obtain ⟨ws, hw, hv⟩ := ih.mpr (Or.inr h2)
          exact ⟨ws, List.mem_cons_of_mem _ hw, hv⟩

/-- The fold of the calls over a query map: a map is present once there was one
or a `WithQuery` was applied, and its pairs are the old ones and those of the
`WithQuery` calls. -/
theorem foldl_stepQuery (calls : List Call) :
    ∀ q0 : Option Values,
      ((q0 ≠ none ∨ ∃ k v, Call.withQuery k v ∈ calls) →
        ∃ q1, calls.foldl Call.stepQuery q0 = some q1) ∧
      (∀ q1, calls.foldl Call.stepQuery q0 = some q1 → ∀ k v,
        (holdsPair q1 k v ↔ holdsPair (q0.getD []) k v ∨ Call.withQuery k v ∈ calls)) := by
  induction calls with
  | nil =>
    intro q0
    refine ⟨?_, ?_⟩
    · rintro (h | ⟨k, v, h⟩)
      · cases q0 with
        | none => exact absurd rfl h
        | some q => exact ⟨q, rfl⟩
      · simp at h
    · intro q1 hq1 k v
      simp only [List.foldl_nil] at hq1
      subst hq1
      simp
  | cons c rest ih =>
    intro q0
    simp only [List.foldl_cons]
    refine ⟨?_, ?_⟩
    · rintro (h | ⟨k, v, h⟩)
      · apply (ih _).1
        left
        cases c <;> first | exact h | simp [Call.stepQuery]
      · rcases List.mem_cons.mp h with h1 | h1
        · subst h1
          exact (ih _).1 (Or.inl (by simp [Call.stepQuery]))
        · exact (ih _).1 (Or.inr ⟨k, v, h1⟩)
    · intro q1 hq1 k v
      rw [(ih _).2 q1 hq1 k v]
      cases c with
      | withQuery key val =>
        simp only [Call.stepQuery, Option.getD_some, valuesAdd_holds, List.mem_cons,
          Call.withQuery.injEq]
        tauto
      | _ => simp [Call.stepQuery]

theorem mem_insertByKey (e x : Bytes × List Bytes) (l : Values) :
    x ∈ insertByKey e l ↔ x = e ∨ x ∈ l := by
  induction l with
  | nil => simp [insertByKey]
  | cons y ys ih =>
    unfold insertByKey
    split
    · simp
    · simp only [List.mem_cons, ih]
      tauto

theorem mem_sortByKey (x : Bytes × List Bytes) (l : Values) : x ∈ sortByKey l ↔ x ∈ l := by
  induction l with
  | nil => simp [sortByKey]
  | cons y ys ih => simp [sortByKey, mem_insertByKey, ih]

theorem mem_encodeKey (item k : Bytes) (vs : List Bytes) :
    item ∈ encodeKey k vs ↔ ∃ v, v ∈ vs ∧ item = queryEscape k ++ [61] ++ queryEscape v := by
  induction vs with
  | nil => simp [encodeKey]
  | cons v rest ih => simp [encodeKey, ih]

/-- The items of the encoding are those of the pairs the map holds. -/
theorem mem_encodeItems (item : Bytes) (q : Values) :
    item ∈ encodeItems q ↔
      ∃ k v, holdsPair q k v ∧ item = queryEscape k ++ [61] ++ queryEscape v := by
  unfold encodeItems holdsPair
  simp only [List.mem_flatMap, mem_sortByKey, mem_encodeKey]
  constructor
  · rintro ⟨⟨k, vs⟩, hmem, v, hv, hitem⟩
    exact ⟨k, v, ⟨vs, hmem, hv⟩, hitem⟩
  · rintro ⟨k, v, ⟨vs, hmem, hv⟩, hitem⟩
    exact ⟨(k, vs), hmem, v, hv, hitem⟩

/-- Up to the transport call no step reads the body of the response. -/
theorem eventsAtSend_readsBody (env : Env) (options : List OptionFunc) (o : option)
    (cl : Client) (req : Request) (w : World) :
    (eventsAtSend env options o cl req w).filter Event.readsBody = [] := by
  rw [List.filter_eq_nil_iff]
  intro ev h
  unfold eventsAtSend at h
  rcases List.mem_append.mp h with h1 | h1
  · rcases List.mem_append.mp h1 with h2 | h2
    · have := applyOptions_events options 0 emptyOption _ h2
      cases ev <;> simp_all [Event.isApply, Event.readsBody]
    · obtain ⟨err, herr⟩ := stepDumpRequest_events env o req w _ h2
      subst herr
      simp [Event.readsBody]
  · simp at h1
    subst h1
    simp [Event.readsBody]

/-- The body reads of the response dump: one when a sink is configured, none
otherwise. -/
theorem stepDumpResponse_readsBody (env : Env) (o : option) (r : Response) (w : World) :
    (o.responseDump = none → (stepDumpResponse env o r w).2 = []) ∧
    (∀ sink, o.responseDump = some sink →
      (stepDumpResponse env o r w).2.filter Event.readsBody = [Event.dumpResponse r]) := by
  unfold stepDumpResponse
  constructor
  · intro h
    rw [h]
  · intro sink h
    rw [h]
    simp only
    split <;> simp [Event.readsBody]

/-- The call when reading the body fails: the status of the response and the
read error, no decode. -/
theorem HTTPRequest_read_failure (env : Env) (method urlEndpoint : Bytes) (resp : GoAny)
    (options : List OptionFunc) (w : World) (o : option) (cl : Client) (req : Request)
    (r : Response) (err : GoError)
    (hresp : resp ≠ GoAny.nil)
    (hconf : configure options = Except.ok o)
    (hsend : Event.send cl req ∈ (HTTPRequest env method urlEndpoint resp options w).events)
    (hdo : env.clientDo cl req = Except.ok r)
    (hbody : bodyAfterDump env o r = Except.error err) :
    (HTTPRequest env method urlEndpoint resp options w).httpStatus = r.statusCode ∧
    (HTTPRequest env method urlEndpoint resp options w).e = some err ∧
    (HTTPRequest env method urlEndpoint resp options w).events.filter Event.isUnmarshal = [] := by
  rw [HTTPRequest_after_send env method urlEndpoint resp options w o cl req hconf hsend, hdo]
  simp only [handleResponse, hbody, readAndDecode, if_neg hresp]
  refine ⟨trivial, trivial, ?_⟩
  rw [List.filter_append,
    filter_isRead_before env options o cl req r w Event.isUnmarshal (fun _ hev => Or.inr hev)]
  rfl

/-- The three failures of `execute` before the transport call, and the
dispatch when none of them occurs. -/
theorem execute_cases (env : Env) (method urlEndpoint : Bytes) (resp : GoAny) (o : option)
    (w : World) (events : List Event) :
    (∀ err, env.urlParse urlEndpoint = Except.error err →
      execute env method urlEndpoint resp o w events =
        { httpStatus := 0, e := some err, world := w, events := events }) ∧
    (∀ parsed err, env.urlParse urlEndpoint = Except.ok parsed →
      encodePayload env o w = Except.error err →
      execute env method urlEndpoint resp o w events =
        { httpStatus := 0, e := some err, world := w, events := events }) ∧
    (∀ parsed payload err, env.urlParse urlEndpoint = Except.ok parsed →
      encodePayload env o w = Except.ok payload →
      env.newRequestError (resolveContext o) method (env.urlString (setQuery o parsed)) payload
        = some err →
      execute env method urlEndpoint resp o w events =
        { httpStatus := 0, e := some err, world := w, events := events }) ∧
    (∀ parsed payload, env.urlParse urlEndpoint = Except.ok parsed →
      encodePayload env o w = Except.ok payload →
      env.newRequestError (resolveContext o) method (env.urlString (setQuery o parsed)) payload
        = none →
      Event.send (installRedirect o (resolveClient o w))
        (buildRequest o (resolveContext o) method (env.urlString (setQuery o parsed)) payload) ∈
        (execute env method urlEndpoint resp o w events).events ∧
      (∀ err, env.clientDo (installRedirect o (resolveClient o w))
          (buildRequest o (resolveContext o) method (env.urlString (setQuery o parsed)) payload)
          = Except.error err →
        (execute env method urlEndpoint resp o w events).httpStatus = 0 ∧
        (execute env method urlEndpoint resp o w events).e = some err) ∧
      (∀ r, env.clientDo (installRedirect o (resolveClient o w))
          (buildRequest o (resolveContext o) method (env.urlString (setQuery o parsed)) payload)
          = Except.ok r →
        (execute env method urlEndpoint resp o w events).httpStatus = r.statusCode)) := by
  refine ⟨?_, ?_, ?_, ?_⟩
  · intro err hp
    simp [execute, hp]
  · intro parsed err hp he
    simp [execute, hp, he]
  · intro parsed payload err hp he hn
    simp [execute, hp, he, hn]
  · intro parsed payload hp he hn
    have hcl : resolveClient o (stepDumpRequest env o (buildRequest o (resolveContext o)
        method (env.urlString (setQuery o parsed)) payload) w).1 = resolveClient o w := by
      unfold resolveClient
      rw [(stepDumpRequest_heap env o _ w).2]
    unfold execute
    simp only [hp, he, hn, hcl]
    generalize buildRequest o (resolveContext o) method
      (env.urlString (setQuery o parsed)) payload = req
    generalize installRedirect o (resolveClient o w) = cl
    refine ⟨?_, ?_, ?_⟩
    · cases env.clientDo cl req with
      | error err => simp
      | ok httpResp => exact handleResponse_mono env o resp httpResp _ _ _ (by simp)
    · intro err hd
      rw [hd]
      exact ⟨rfl, rfl⟩
    · intro r hd
      rw [hd]
      exact (handleResponse_status env o resp r _ _).1

/-- The encoding escapes as `url.QueryEscape` does and sorts the keys:
`{"b c": ["d&e"], "a": ["1", "~"]}` gives `a=1&a=~&b+c=d%26e`. -/
theorem valuesEncode_example :
    valuesEncode [(ascii "b c", [ascii "d&e"]), (ascii "a", [ascii "1", ascii "~"])] =
      ascii "a=1&a=~&b+c=d%26e" := by
  decide

/-! ## Destination check (C1) -/

/-- C1: a destination that is non-nil and not of pointer kind makes
`HTTPRequest` return status 0 and an error wrapping `ErrInvalidOption`, with no
step performed at all (no option applied, no transport call) and the world
untouched, whatever the options are. -/
theorem HTTPRequest_non_pointer_destination (env : Env) (method urlEndpoint : Bytes)
    (resp : GoAny) (options : List OptionFunc) (w : World)
    (hnil : resp ≠ GoAny.nil) (hkind : isPointerKind resp = false) :
    (HTTPRequest env method urlEndpoint resp options w).httpStatus = 0 ∧
    (∃ err, (HTTPRequest env method urlEndpoint resp options w).e = some err ∧
      errorsIs err ErrInvalidOption = true) ∧
    (HTTPRequest env method urlEndpoint resp options w).events = [] ∧
    (HTTPRequest env method urlEndpoint resp options w).world = w := by
  have hc : resp ≠ GoAny.nil ∧ isPointerKind resp = false := ⟨hnil, hkind⟩
  unfold HTTPRequest
  rw [if_pos hc]
  exact ⟨rfl, ⟨_, rfl, by simp [errorsIs, ErrInvalidOption]⟩, rfl, rfl⟩

/-- Example for C1: a value destination with a failing option first in the list. -/
theorem HTTPRequest_non_pointer_destination_witness :
    GoAny.value 5 ≠ GoAny.nil ∧ isPointerKind (GoAny.value 5) = false ∧
    (HTTPRequest (stubEnv (Except.error (GoError.external 9))) (ascii "GET") (ascii "http://x/y")
      (GoAny.value 5) [failingOption (GoError.external 4), WithQuery (ascii "a") (ascii "1")]
      stubWorld).httpStatus = 0 ∧
    (HTTPRequest (stubEnv (Except.error (GoError.external 9))) (ascii "GET") (ascii "http://x/y")
      (GoAny.value 5) [failingOption (GoError.external 4), WithQuery (ascii "a") (ascii "1")]
      stubWorld).events = [] :=
  ⟨by decide, by decide,
    (HTTPRequest_non_pointer_destination (stubEnv (Except.error (GoError.external 9)))
      (ascii "GET") (ascii "http://x/y") (GoAny.value 5)
      [failingOption (GoError.external 4), WithQuery (ascii "a") (ascii "1")] stubWorld
      (by decide) (by decide)).1,
    (HTTPRequest_non_pointer_destination (stubEnv (Except.error (GoError.external 9)))
      (ascii "GET") (ascii "http://x/y") (GoAny.value 5)
      [failingOption (GoError.external 4), WithQuery (ascii "a") (ascii "1")] stubWorld
      (by decide) (by decide)).2.2.1⟩

/-! ## Custom error capture option (C2) -/

/-- C2: applying `WithCustomErrorResponse capture successStatus` to any
snapshot fails exactly when `capture` is nil or not of pointer kind, and then
with an error wrapping `ErrInvalidOption` and the snapshot unchanged; otherwise
it succeeds and the snapshot differs from the old one only in its custom error
capture, which is exactly `(capture, successStatus)`. -/
theorem WithCustomErrorResponse_spec (capture : GoAny) (successStatus : Int) (o : option) :
    ((∃ err, (WithCustomErrorResponse capture successStatus o).2 = some err ∧
        errorsIs err ErrInvalidOption = true) ↔
      (capture = GoAny.nil ∨ isPointerKind capture = false)) ∧
    ((WithCustomErrorResponse capture successStatus o).2 = none ↔
      ¬ (capture = GoAny.nil ∨ isPointerKind capture = false)) ∧
    ((WithCustomErrorResponse capture successStatus o).2 ≠ none →
      (WithCustomErrorResponse capture successStatus o).1 = o) ∧
    ((WithCustomErrorResponse capture successStatus o).2 = none →
      (WithCustomErrorResponse capture successStatus o).1 =
        { o with customErrResponse := some (customErrorCapturer.mk capture successStatus) }) := by
  unfold WithCustomErrorResponse
  by_cases h1 : capture = GoAny.nil
  · simp [h1, errorsIs, ErrInvalidOption]
  · by_cases h2 : isPointerKind capture = false
    · simp [h1, h2, errorsIs, ErrInvalidOption]
    · simp [h1, h2]

/-! ## First failing option (C3) -/

/-- C3: with a valid destination (nil or pointer), if the option at index `i`
is the first to return an error `err`, then `HTTPRequest` returns status 0 and
exactly `err`, leaves the world untouched, and its steps are exactly the
applications of options 0 to `i`, in order, each to the snapshot its
predecessors built from the empty one: no later option and no transport call. -/
theorem HTTPRequest_first_failing_option (env : Env) (method urlEndpoint : Bytes)
    (resp : GoAny) (options : List OptionFunc) (w : World) (i : Nat) (f : OptionFunc)
    (err : GoError)
    (hdest : resp = GoAny.nil ∨ isPointerKind resp = true)
    (hbefore : ∀ j g, j < i → options[j]? = some g → (g (snapshotAfter options j)).2 = none)
    (hf : options[i]? = some f)
    (herr : (f (snapshotAfter options i)).2 = some err) :
    (HTTPRequest env method urlEndpoint resp options w).httpStatus = 0 ∧
    (HTTPRequest env method urlEndpoint resp options w).e = some err ∧
    (HTTPRequest env method urlEndpoint resp options w).world = w ∧
    (HTTPRequest env method urlEndpoint resp options w).events =
      (List.range (i + 1)).map (fun j => Event.applyOption j (snapshotAfter options j)) := by
  have hc : ¬ (resp ≠ GoAny.nil ∧ isPointerKind resp = false) := by
    rcases hdest with h | h
    · simp [h]
    · simp [h]
  have hloop := applyOptions_fail_at i options 0 emptyOption f err hbefore hf herr
  simp only [HTTPRequest, if_neg hc, hloop]
  simp [snapshotAfter]

/-- Example for C3: the second of three options fails. -/
theorem HTTPRequest_first_failing_option_witness :
    (HTTPRequest (stubEnv (Except.error (GoError.external 9))) (ascii "GET") (ascii "http://x/y")
      GoAny.nil
      [WithQuery [97] [49], failingOption (GoError.external 4), WithQuery [98] [50]]
      stubWorld).e = some (GoError.external 4) ∧
    (HTTPRequest (stubEnv (Except.error (GoError.external 9))) (ascii "GET") (ascii "http://x/y")
      GoAny.nil
      [WithQuery [97] [49], failingOption (GoError.external 4), WithQuery [98] [50]]
      stubWorld).events =
      (List.range (1 + 1)).map (fun j => Event.applyOption j
        (snapshotAfter
          [WithQuery [97] [49], failingOption (GoError.external 4), WithQuery [98] [50]] j)) :=
  ⟨(HTTPRequest_first_failing_option (stubEnv (Except.error (GoError.external 9)))
      (ascii "GET") (ascii "http://x/y") GoAny.nil
      [WithQuery [97] [49], failingOption (GoError.external 4), WithQuery [98] [50]]
      stubWorld 1 (failingOption (GoError.external 4)) (GoError.external 4)
      (Or.inl rfl)
      (by
        intro j g hj hg
        have hj0 : j = 0 := by omega
        subst hj0
        simp at hg
        subst hg
        rfl)
      rfl rfl).2.1,
    (HTTPRequest_first_failing_option (stubEnv (Except.error (GoError.external 9)))
      (ascii "GET") (ascii "http://x/y") GoAny.nil
      [WithQuery [97] [49], failingOption (GoError.external 4), WithQuery [98] [50]]
      stubWorld 1 (failingOption (GoError.external 4)) (GoError.external 4)
      (Or.inl rfl)
      (by
        intro j g hj hg
        have hj0 : j = 0 := by omega
        subst hj0
        simp at hg
        subst hg
        rfl)
      rfl rfl).2.2.2⟩

/-! ## Nil destination (C7) -/

/-- C7, as stated, fails when a response dump is configured: with a nil
destination and `WithResponseDump`, the call returns `(200, nil)` and its steps
hold one read of the body, the one `httputil.DumpResponse(httpResp, true)`
makes on line 106 before the return of line 120. -/
theorem HTTPRequest_nil_destination_dump_counterexample :
    configure [WithResponseDump (some 4)] =
      Except.ok { emptyOption with responseDump := some 4 } ∧
    (HTTPRequest (stubEnv (Except.ok { statusCode := 200, header := [], body := Except.ok [120] }))
      [71, 69, 84] [104, 116, 116, 112, 58, 47, 47, 120] GoAny.nil
      [WithResponseDump (some 4)] stubWorld).httpStatus = 200 ∧
    (HTTPRequest (stubEnv (Except.ok { statusCode := 200, header := [], body := Except.ok [120] }))
      [71, 69, 84] [104, 116, 116, 112, 58, 47, 47, 120] GoAny.nil
      [WithResponseDump (some 4)] stubWorld).e = none ∧
    (HTTPRequest (stubEnv (Except.ok { statusCode := 200, header := [], body := Except.ok [120] }))
      [71, 69, 84] [104, 116, 116, 112, 58, 47, 47, 120] GoAny.nil
      [WithResponseDump (some 4)] stubWorld).events.filter Event.readsBody =
      [Event.dumpResponse { statusCode := 200, header := [], body := Except.ok [120] }] :=
  ⟨rfl, rfl, rfl, rfl⟩

/-- C7, amended: with a nil destination, options that all succeed (snapshot
`o`) and a transport that answers the request with a response `r`,
`HTTPRequest` returns `(r.statusCode, nil)`; none of its steps is a call of
`io.ReadAll` on the body or a decode, whatever the body is and whatever is
configured; with no response-dump sink configured no step reads the body at
all, and with one configured the body is read once, by the response dump. -/
theorem HTTPRequest_nil_destination (env : Env) (method urlEndpoint : Bytes)
    (options : List OptionFunc) (w : World) (o : option) (cl : Client) (req : Request)
    (r : Response)
    (hconf : configure options = Except.ok o)
    (hsend : Event.send cl req ∈
      (HTTPRequest env method urlEndpoint GoAny.nil options w).events)
    (hdo : env.clientDo cl req = Except.ok r) :
    (HTTPRequest env method urlEndpoint GoAny.nil options w).httpStatus = r.statusCode ∧
    (HTTPRequest env method urlEndpoint GoAny.nil options w).e = none ∧
    (∀ ev ∈ (HTTPRequest env method urlEndpoint GoAny.nil options w).events,
      ev.isRead = false ∧ ev.isUnmarshal = false) ∧
    (o.responseDump = none →
      (HTTPRequest env method urlEndpoint GoAny.nil options w).events.filter
        Event.readsBody = []) ∧
    (∀ sink, o.responseDump = some sink →
      (HTTPRequest env method urlEndpoint GoAny.nil options w).events.filter
        Event.readsBody = [Event.dumpResponse r]) := by
  rw [HTTPRequest_after_send env method urlEndpoint GoAny.nil options w o cl req hconf hsend, hdo]
  simp only [handleResponse, readAndDecode, if_pos]
  refine ⟨trivial, trivial, ?_, ?_, ?_⟩
  · intro ev hev
    rcases List.mem_append.mp hev with h1 | h1
    · exact eventsAtSend_kinds env options o cl req w ev h1
    · rcases stepDumpResponse_events env o r _ _ h1 with ⟨err, herr⟩ | herr <;> subst herr <;>
        exact ⟨rfl, rfl⟩
  · intro hnone
    rw [List.filter_append, eventsAtSend_readsBody,
      (stepDumpResponse_readsBody env o r _).1 hnone]
    rfl
  · intro sink hsink
    rw [List.filter_append, eventsAtSend_readsBody,
      (stepDumpResponse_readsBody env o r _).2 sink hsink]
    rfl

/-- Example for C7: nil destination, error capture configured, a 404 whose body
is not JSON. -/
theorem HTTPRequest_nil_destination_witness :
    (HTTPRequest (stubEnv (Except.ok { statusCode := 404, header := [], body := Except.ok [120] }))
      [71, 69, 84] [104, 116, 116, 112, 58, 47, 47, 120] GoAny.nil
      [WithCustomErrorResponse (GoAny.pointer (some 1)) 200] stubWorld).httpStatus = 404 ∧
    (HTTPRequest (stubEnv (Except.ok { statusCode := 404, header := [], body := Except.ok [120] }))
      [71, 69, 84] [104, 116, 116, 112, 58, 47, 47, 120] GoAny.nil
      [WithCustomErrorResponse (GoAny.pointer (some 1)) 200] stubWorld).e = none ∧
    (HTTPRequest (stubEnv (Except.ok { statusCode := 404, header := [], body := Except.ok [120] }))
      [71, 69, 84] [104, 116, 116, 112, 58, 47, 47, 120] GoAny.nil
      [WithCustomErrorResponse (GoAny.pointer (some 1)) 200] stubWorld).events.filter Event.readsBody = [] :=
  have h := HTTPRequest_nil_destination
    (stubEnv (Except.ok { statusCode := 404, header := [], body := Except.ok [120] }))
    [71, 69, 84] [104, 116, 116, 112, 58, 47, 47, 120]
    [WithCustomErrorResponse (GoAny.pointer (some 1)) 200] stubWorld
    (WithCustomErrorResponse (GoAny.pointer (some 1)) 200 emptyOption).1
    { checkRedirect := none, settings := 0 }
    { ctx := Ctx.background, method := [71, 69, 84],
      url := [104, 116, 116, 112, 58, 47, 47, 120], body := [], header := [] }
    { statusCode := 404, header := [], body := Except.ok [120] }
    rfl (List.mem_of_mem_getLast? rfl) rfl
  ⟨h.1, h.2.1, h.2.2.2.1 rfl⟩

/-! ## Custom error capture on an unexpected status (C5) -/

/-- C5, as stated, fails for a nil destination: an error capture `(&obj1, 200)`
is configured, the transport answers 404 with the body `7`, which decodes into
the target, the call returns `(404, nil)`, and yet the target still holds its
old contents: the return of line 120 comes before any decode. -/
theorem HTTPRequest_custom_error_nil_destination_counterexample :
    configure [WithCustomErrorResponse (GoAny.pointer (some 1)) 200] =
      Except.ok { emptyOption with
        customErrResponse := some (customErrorCapturer.mk (GoAny.pointer (some 1)) 200) } ∧
    (stubUnmarshal [55] 1 stubWorld.heap).2 = none ∧
    (stubUnmarshal [55] 1 stubWorld.heap).1 1 = GoValue.data 7 ∧
    (HTTPRequest (stubEnv (Except.ok { statusCode := 404, header := [], body := Except.ok [55] }))
      [71, 69, 84] [104, 116, 116, 112, 58, 47, 47, 120] GoAny.nil
      [WithCustomErrorResponse (GoAny.pointer (some 1)) 200] stubWorld).events.getLast? =
        some (Event.send { checkRedirect := none, settings := 0 }
          { ctx := Ctx.background, method := [71, 69, 84],
            url := [104, 116, 116, 112, 58, 47, 47, 120], body := [], header := [] }) ∧
    (HTTPRequest (stubEnv (Except.ok { statusCode := 404, header := [], body := Except.ok [55] }))
      [71, 69, 84] [104, 116, 116, 112, 58, 47, 47, 120] GoAny.nil
      [WithCustomErrorResponse (GoAny.pointer (some 1)) 200] stubWorld).httpStatus = 404 ∧
    (HTTPRequest (stubEnv (Except.ok { statusCode := 404, header := [], body := Except.ok [55] }))
      [71, 69, 84] [104, 116, 116, 112, 58, 47, 47, 120] GoAny.nil
      [WithCustomErrorResponse (GoAny.pointer (some 1)) 200] stubWorld).e = none ∧
    (HTTPRequest (stubEnv (Except.ok { statusCode := 404, header := [], body := Except.ok [55] }))
      [71, 69, 84] [104, 116, 116, 112, 58, 47, 47, 120] GoAny.nil
      [WithCustomErrorResponse (GoAny.pointer (some 1)) 200] stubWorld).world.heap 1 = GoValue.data 0 ∧
    GoValue.data 0 ≠ GoValue.data 7 :=
  ⟨rfl, rfl, rfl, rfl, rfl, rfl, rfl, by decide⟩

/-- C5, amended: with a non-nil destination (a pointer, possibly a nil one),
options that all succeed and configure the error capture `(t, s)`, a transport
that answers with a response `r` whose status differs from `s`, and a body `b`
that decodes into `t` without error, `HTTPRequest` returns `(r.statusCode, nil)`
and `t` holds the decoded body: the one decode of the call is that of `b` into
`t`, and the caller's objects are as this decode leaves them. -/
theorem HTTPRequest_custom_error_capture (env : Env) (method urlEndpoint : Bytes)
    (dest : Option Nat) (options : List OptionFunc) (w : World) (o : option) (cl : Client)
    (req : Request) (r : Response) (t : GoAny) (s : Int) (b : Bytes)
    (hconf : configure options = Except.ok o)
    (hcap : o.customErrResponse = some (customErrorCapturer.mk t s))
    (hsend : Event.send cl req ∈
      (HTTPRequest env method urlEndpoint (GoAny.pointer dest) options w).events)
    (hdo : env.clientDo cl req = Except.ok r)
    (hstatus : r.statusCode ≠ s)
    (hbody : bodyAfterDump env o r = Except.ok b)
    (hdec : (unmarshalInto env b t (captureHeader o r w.heap)).2 = none) :
    (HTTPRequest env method urlEndpoint (GoAny.pointer dest) options w).httpStatus =
      r.statusCode ∧
    (HTTPRequest env method urlEndpoint (GoAny.pointer dest) options w).e = none ∧
    (HTTPRequest env method urlEndpoint (GoAny.pointer dest) options w).events.filter
      Event.isUnmarshal = [Event.unmarshal b t] ∧
    (HTTPRequest env method urlEndpoint (GoAny.pointer dest) options w).world.heap =
      (unmarshalInto env b t (captureHeader o r w.heap)).1 := by
  have h := HTTPRequest_decode env method urlEndpoint (GoAny.pointer dest) options w o cl req r b
    (by simp) hconf hsend hdo hbody
  have htarget : selectedTarget o (GoAny.pointer dest) r.statusCode = t := by
    simp [selectedTarget, hcap, hstatus]
  rw [htarget] at h
  refine ⟨h.1, ?_, ?_, h.2.1⟩
  · rw [h.2.2.1, hdec]
    rfl
  · rw [h.2.2.2, List.append_assoc, List.filter_append,
      filter_isRead_before env options o cl req r w Event.isUnmarshal (fun _ hev => Or.inr hev)]
    rfl

/-- Example for C5: expected 200, the transport answers 404 with a decodable
body. -/
theorem HTTPRequest_custom_error_capture_witness :
    (HTTPRequest (stubEnv (Except.ok { statusCode := 404, header := [], body := Except.ok [55] }))
      [71, 69, 84] [104, 116, 116, 112, 58, 47, 47, 120] (GoAny.pointer (some 2))
      [WithCustomErrorResponse (GoAny.pointer (some 1)) 200] stubWorld).httpStatus = 404 ∧
    (HTTPRequest (stubEnv (Except.ok { statusCode := 404, header := [], body := Except.ok [55] }))
      [71, 69, 84] [104, 116, 116, 112, 58, 47, 47, 120] (GoAny.pointer (some 2))
      [WithCustomErrorResponse (GoAny.pointer (some 1)) 200] stubWorld).e = none ∧
    (HTTPRequest (stubEnv (Except.ok { statusCode := 404, header := [], body := Except.ok [55] }))
      [71, 69, 84] [104, 116, 116, 112, 58, 47, 47, 120] (GoAny.pointer (some 2))
      [WithCustomErrorResponse (GoAny.pointer (some 1)) 200] stubWorld).world.heap 1 = GoValue.data 7 :=
  have h := HTTPRequest_custom_error_capture
    (stubEnv (Except.ok { statusCode := 404, header := [], body := Except.ok [55] }))
    [71, 69, 84] [104, 116, 116, 112, 58, 47, 47, 120] (some 2)
    [WithCustomErrorResponse (GoAny.pointer (some 1)) 200] stubWorld
    (WithCustomErrorResponse (GoAny.pointer (some 1)) 200 emptyOption).1
    { checkRedirect := none, settings := 0 }
    { ctx := Ctx.background, method := [71, 69, 84],
      url := [104, 116, 116, 112, 58, 47, 47, 120], body := [], header := [] }
    { statusCode := 404, header := [], body := Except.ok [55] }
    (GoAny.pointer (some 1)) 200 [55]
    rfl rfl (List.Mem.tail _ (List.Mem.head _)) rfl (by decide) rfl rfl
  ⟨h.1, h.2.1, (congrFun h.2.2.2 1).trans rfl⟩

/-! ## Expected status with an error capture configured (C6) -/

/-- C6, as stated, fails in two ways. When the error-capture target is the
destination itself (destination `&obj1`, error capture `(&obj1, 200)`, the
transport answers 200 with the body `7`) the call returns `(200, nil)` and the
object the error-capture target points to has changed from 0 to 7. And when
reading the body fails (destination `&obj2`) nothing is decoded into the
destination: the call returns 200 with the read error and makes no decode. -/
theorem HTTPRequest_expected_status_alias_counterexample :
    configure [WithCustomErrorResponse (GoAny.pointer (some 1)) 200] =
      Except.ok { emptyOption with
        customErrResponse := some (customErrorCapturer.mk (GoAny.pointer (some 1)) 200) } ∧
    (HTTPRequest (stubEnv (Except.ok { statusCode := 200, header := [], body := Except.ok [55] }))
      [71, 69, 84] [104, 116, 116, 112, 58, 47, 47, 120] (GoAny.pointer (some 1))
      [WithCustomErrorResponse (GoAny.pointer (some 1)) 200] stubWorld).events[1]? =
        some (Event.send { checkRedirect := none, settings := 0 }
          { ctx := Ctx.background, method := [71, 69, 84],
            url := [104, 116, 116, 112, 58, 47, 47, 120], body := [], header := [] }) ∧
    (HTTPRequest (stubEnv (Except.ok { statusCode := 200, header := [], body := Except.ok [55] }))
      [71, 69, 84] [104, 116, 116, 112, 58, 47, 47, 120] (GoAny.pointer (some 1))
      [WithCustomErrorResponse (GoAny.pointer (some 1)) 200] stubWorld).httpStatus = 200 ∧
    (HTTPRequest (stubEnv (Except.ok { statusCode := 200, header := [], body := Except.ok [55] }))
      [71, 69, 84] [104, 116, 116, 112, 58, 47, 47, 120] (GoAny.pointer (some 1))
      [WithCustomErrorResponse (GoAny.pointer (some 1)) 200] stubWorld).e = none ∧
    stubWorld.heap 1 = GoValue.data 0 ∧
    (HTTPRequest (stubEnv (Except.ok { statusCode := 200, header := [], body := Except.ok [55] }))
      [71, 69, 84] [104, 116, 116, 112, 58, 47, 47, 120] (GoAny.pointer (some 1))
      [WithCustomErrorResponse (GoAny.pointer (some 1)) 200] stubWorld).world.heap 1 = GoValue.data 7 ∧
    GoValue.data 7 ≠ GoValue.data 0 ∧
    (HTTPRequest (stubEnv (Except.ok { statusCode := 200, header := [], body := Except.error (GoError.external 7) }))
      [71, 69, 84] [104, 116, 116, 112, 58, 47, 47, 120] (GoAny.pointer (some 2))
      [WithCustomErrorResponse (GoAny.pointer (some 1)) 200] stubWorld).httpStatus = 200 ∧
    (HTTPRequest (stubEnv (Except.ok { statusCode := 200, header := [], body := Except.error (GoError.external 7) }))
      [71, 69, 84] [104, 116, 116, 112, 58, 47, 47, 120] (GoAny.pointer (some 2))
      [WithCustomErrorResponse (GoAny.pointer (some 1)) 200] stubWorld).e = some (GoError.external 7) ∧
    (HTTPRequest (stubEnv (Except.ok { statusCode := 200, header := [], body := Except.error (GoError.external 7) }))
      [71, 69, 84] [104, 116, 116, 112, 58, 47, 47, 120] (GoAny.pointer (some 2))
      [WithCustomErrorResponse (GoAny.pointer (some 1)) 200] stubWorld).events.filter Event.isUnmarshal = [] ∧
    (HTTPRequest (stubEnv (Except.ok { statusCode := 200, header := [], body := Except.error (GoError.external 7) }))
      [71, 69, 84] [104, 116, 116, 112, 58, 47, 47, 120] (GoAny.pointer (some 2))
      [WithCustomErrorResponse (GoAny.pointer (some 1)) 200] stubWorld).world.heap 2 = stubWorld.heap 2 :=
  ⟨rfl, rfl, rfl, rfl, rfl, rfl, by decide, rfl, rfl, rfl, rfl⟩

/-- C6, amended: with a non-nil pointer destination `&d`, options that all
succeed and configure an error capture `(t, s)`, and a transport answering
with status `s`, the call returns status `s`; when the body is read, as `b`,
the one decode of the call is that of `b` into the destination (the
error-capture target is not decoded into) and the error is nil when that
decode succeeds; when reading the body fails, the call returns the read error
and decodes nothing. -/
theorem HTTPRequest_expected_status (env : Env) (method urlEndpoint : Bytes)
    (d : Nat) (options : List OptionFunc) (w : World) (o : option) (cl : Client)
    (req : Request) (r : Response) (t : GoAny) (s : Int)
    (hconf : configure options = Except.ok o)
    (hcap : o.customErrResponse = some (customErrorCapturer.mk t s))
    (hsend : Event.send cl req ∈
      (HTTPRequest env method urlEndpoint (GoAny.pointer (some d)) options w).events)
    (hdo : env.clientDo cl req = Except.ok r)
    (hstatus : r.statusCode = s) :
    (HTTPRequest env method urlEndpoint (GoAny.pointer (some d)) options w).httpStatus = s ∧
    (∀ b, bodyAfterDump env o r = Except.ok b →
      (HTTPRequest env method urlEndpoint (GoAny.pointer (some d)) options w).events.filter
        Event.isUnmarshal = [Event.unmarshal b (GoAny.pointer (some d))] ∧
      ((unmarshalInto env b (GoAny.pointer (some d)) (captureHeader o r w.heap)).2 = none →
        (HTTPRequest env method urlEndpoint (GoAny.pointer (some d)) options w).e = none)) ∧
    (∀ err, bodyAfterDump env o r = Except.error err →
      (HTTPRequest env method urlEndpoint (GoAny.pointer (some d)) options w).e = some err ∧
      (HTTPRequest env method urlEndpoint (GoAny.pointer (some d)) options w).events.filter
        Event.isUnmarshal = []) := by
  have hst : (HTTPRequest env method urlEndpoint (GoAny.pointer (some d)) options w).httpStatus
      = s := by
    rw [HTTPRequest_after_send env method urlEndpoint _ options w o cl req hconf hsend, hdo]
    simp only
    rw [(handleResponse_status env o _ r _ _).1, hstatus]
  refine ⟨hst, ?_, ?_⟩
  · intro b hbody
    have h := HTTPRequest_decode env method urlEndpoint (GoAny.pointer (some d)) options w o cl
      req r b (by simp) hconf hsend hdo hbody
    have htarget : selectedTarget o (GoAny.pointer (some d)) r.statusCode =
        GoAny.pointer (some d) := by
      simp [selectedTarget, hcap, hstatus]
    rw [htarget] at h
    refine ⟨?_, ?_⟩
    · rw [h.2.2.2, List.append_assoc, List.filter_append,
        filter_isRead_before env options o cl req r w Event.isUnmarshal (fun _ hev => Or.inr hev)]
      rfl
    · intro hdec
      rw [h.2.2.1, hdec]
      rfl
  · intro err hbody
    have h := HTTPRequest_read_failure env method urlEndpoint (GoAny.pointer (some d)) options w
      o cl req r err (by simp) hconf hsend hdo hbody
    exact ⟨h.2.1, h.2.2⟩

/-- Example for C6: expected 200, the transport answers 200; the body is
decoded into the destination. -/
theorem HTTPRequest_expected_status_witness :
    (HTTPRequest (stubEnv (Except.ok { statusCode := 200, header := [], body := Except.ok [55] }))
      [71, 69, 84] [104, 116, 116, 112, 58, 47, 47, 120] (GoAny.pointer (some 2))
      [WithCustomErrorResponse (GoAny.pointer (some 1)) 200] stubWorld).httpStatus = 200 ∧
    (HTTPRequest (stubEnv (Except.ok { statusCode := 200, header := [], body := Except.ok [55] }))
      [71, 69, 84] [104, 116, 116, 112, 58, 47, 47, 120] (GoAny.pointer (some 2))
      [WithCustomErrorResponse (GoAny.pointer (some 1)) 200] stubWorld).events.filter Event.isUnmarshal =
        [Event.unmarshal [55] (GoAny.pointer (some 2))] ∧
    (HTTPRequest (stubEnv (Except.ok { statusCode := 200, header := [], body := Except.ok [55] }))
      [71, 69, 84] [104, 116, 116, 112, 58, 47, 47, 120] (GoAny.pointer (some 2))
      [WithCustomErrorResponse (GoAny.pointer (some 1)) 200] stubWorld).e = none :=
  have h := HTTPRequest_expected_status
    (stubEnv (Except.ok { statusCode := 200, header := [], body := Except.ok [55] }))
    [71, 69, 84] [104, 116, 116, 112, 58, 47, 47, 120] 2
    [WithCustomErrorResponse (GoAny.pointer (some 1)) 200] stubWorld
    (WithCustomErrorResponse (GoAny.pointer (some 1)) 200 emptyOption).1
    { checkRedirect := none, settings := 0 }
    { ctx := Ctx.background, method := [71, 69, 84],
      url := [104, 116, 116, 112, 58, 47, 47, 120], body := [], header := [] }
    { statusCode := 200, header := [], body := Except.ok [55] }
    (GoAny.pointer (some 1)) 200
    rfl rfl (List.Mem.tail _ (List.Mem.head _)) rfl rfl
  ⟨h.1, (h.2.1 [55] rfl).1, (h.2.1 [55] rfl).2 rfl⟩

/-! ## Decode failure (C8) -/

/-- C8: with a non-nil pointer destination, options that all succeed, a
transport answering with a response `r` and a body read as `b`, if the JSON
decode into the selected target (the error-capture target when one is
configured and the status differs from its success code, else the destination)
fails with `err`, then `HTTPRequest` returns the status of `r` and the join of
`err` with an error whose text is `response: ` followed by exactly `b`; the
body is read once. -/
theorem HTTPRequest_decode_failure (env : Env) (method urlEndpoint : Bytes)
    (d : Nat) (options : List OptionFunc) (w : World) (o : option) (cl : Client)
    (req : Request) (r : Response) (b : Bytes) (err : GoError)
    (hconf : configure options = Except.ok o)
    (hsend : Event.send cl req ∈
      (HTTPRequest env method urlEndpoint (GoAny.pointer (some d)) options w).events)
    (hdo : env.clientDo cl req = Except.ok r)
    (hbody : bodyAfterDump env o r = Except.ok b)
    (hdec : (unmarshalInto env b (selectedTarget o (GoAny.pointer (some d)) r.statusCode)
      (captureHeader o r w.heap)).2 = some err) :
    (HTTPRequest env method urlEndpoint (GoAny.pointer (some d)) options w).httpStatus =
      r.statusCode ∧
    (HTTPRequest env method urlEndpoint (GoAny.pointer (some d)) options w).e =
      some (GoError.join err (GoError.errorf (ascii "response: " ++ b))) ∧
    (HTTPRequest env method urlEndpoint (GoAny.pointer (some d)) options w).events.filter
      Event.isRead = [Event.readAll (Except.ok b)] := by
  have h := HTTPRequest_decode env method urlEndpoint (GoAny.pointer (some d)) options w o cl
    req r b (by simp) hconf hsend hdo hbody
  refine ⟨h.1, ?_, ?_⟩
  · rw [h.2.2.1, hdec]
    rfl
  · rw [h.2.2.2, List.append_assoc, List.filter_append,
      filter_isRead_before env options o cl req r w Event.isRead (fun _ hev => Or.inl hev)]
    rfl

/-- Example for C8: the body `x` does not decode. -/
theorem HTTPRequest_decode_failure_witness :
    (HTTPRequest (stubEnv (Except.ok { statusCode := 200, header := [], body := Except.ok [120] }))
      [71, 69, 84] [104, 116, 116, 112, 58, 47, 47, 120] (GoAny.pointer (some 2))
      [] stubWorld).httpStatus = 200 ∧
    (HTTPRequest (stubEnv (Except.ok { statusCode := 200, header := [], body := Except.ok [120] }))
      [71, 69, 84] [104, 116, 116, 112, 58, 47, 47, 120] (GoAny.pointer (some 2))
      [] stubWorld).e =
        some (GoError.join (GoError.external 2) (GoError.errorf (ascii "response: " ++ [120]))) :=
  have h := HTTPRequest_decode_failure
    (stubEnv (Except.ok { statusCode := 200, header := [], body := Except.ok [120] }))
    [71, 69, 84] [104, 116, 116, 112, 58, 47, 47, 120] 2 [] stubWorld emptyOption
    { checkRedirect := none, settings := 0 }
    { ctx := Ctx.background, method := [71, 69, 84],
      url := [104, 116, 116, 112, 58, 47, 47, 120], body := [], header := [] }
    { statusCode := 200, header := [], body := Except.ok [120] } [120] (GoError.external 2)
    rfl (List.Mem.head _) rfl rfl rfl
  ⟨h.1, h.2.1⟩

/-! ## Transport failure and status 0 (C9) -/

/-- C9, as stated, fails in its second half: with a nil destination and no
options, a URL that does not parse makes `HTTPRequest` return status 0 and the
parser's error although the transport was never invoked, so a send failure is
not the one case of status 0. -/
theorem HTTPRequest_status_zero_without_send_counterexample :
    configure [] = Except.ok emptyOption ∧
    (HTTPRequest (stubEnv (Except.ok { statusCode := 200, header := [], body := Except.ok [55] }))
      [71, 69, 84] [58] GoAny.nil [] stubWorld).httpStatus = 0 ∧
    (HTTPRequest (stubEnv (Except.ok { statusCode := 200, header := [], body := Except.ok [55] }))
      [71, 69, 84] [58] GoAny.nil [] stubWorld).e = some (GoError.external 1) ∧
    (HTTPRequest (stubEnv (Except.ok { statusCode := 200, header := [], body := Except.ok [55] }))
      [71, 69, 84] [58] GoAny.nil [] stubWorld).events = [] :=
  ⟨rfl, rfl, rfl, rfl⟩

/-- C9, amended: with a valid destination and options that all succeed, if URL
parsing fails with `err`, or the URL parses and the encoding of the payload
fails with `err`, or both succeed and the construction of the request fails
with `err`, the call returns status 0 and `err` without invoking the
transport; otherwise the transport is invoked, and if its send fails with
`err` the call returns status 0 and exactly `err`, while if it returns a
response the call returns the status code of that response. -/
theorem HTTPRequest_status_zero (env : Env) (method urlEndpoint : Bytes) (resp : GoAny)
    (options : List OptionFunc) (w : World) (o : option)
    (hdest : resp = GoAny.nil ∨ isPointerKind resp = true)
    (hconf : configure options = Except.ok o) :
    (∀ err, env.urlParse urlEndpoint = Except.error err →
      (HTTPRequest env method urlEndpoint resp options w).httpStatus = 0 ∧
      (HTTPRequest env method urlEndpoint resp options w).e = some err ∧
      ∀ cl req, Event.send cl req ∉ (HTTPRequest env method urlEndpoint resp options w).events) ∧
    (∀ parsed err, env.urlParse urlEndpoint = Except.ok parsed →
      encodePayload env o w = Except.error err →
      (HTTPRequest env method urlEndpoint resp options w).httpStatus = 0 ∧
      (HTTPRequest env method urlEndpoint resp options w).e = some err ∧
      ∀ cl req, Event.send cl req ∉ (HTTPRequest env method urlEndpoint resp options w).events) ∧
    (∀ parsed payload err, env.urlParse urlEndpoint = Except.ok parsed →
      encodePayload env o w = Except.ok payload →
      env.newRequestError (resolveContext o) method (env.urlString (setQuery o parsed)) payload
        = some err →
      (HTTPRequest env method urlEndpoint resp options w).httpStatus = 0 ∧
      (HTTPRequest env method urlEndpoint resp options w).e = some err ∧
      ∀ cl req, Event.send cl req ∉ (HTTPRequest env method urlEndpoint resp options w).events) ∧
    (∀ parsed payload, env.urlParse urlEndpoint = Except.ok parsed →
      encodePayload env o w = Except.ok payload →
      env.newRequestError (resolveContext o) method (env.urlString (setQuery o parsed)) payload
        = none →
      Event.send (installRedirect o (resolveClient o w))
        (buildRequest o (resolveContext o) method (env.urlString (setQuery o parsed)) payload) ∈
        (HTTPRequest env method urlEndpoint resp options w).events ∧
      (∀ err, env.clientDo (installRedirect o (resolveClient o w))
          (buildRequest o (resolveContext o) method (env.urlString (setQuery o parsed)) payload)
          = Except.error err →
        (HTTPRequest env method urlEndpoint resp options w).httpStatus = 0 ∧
        (HTTPRequest env method urlEndpoint resp options w).e = some err) ∧
      (∀ r, env.clientDo (installRedirect o (resolveClient o w))
          (buildRequest o (resolveContext o) method (env.urlString (setQuery o parsed)) payload)
          = Except.ok r →
        (HTTPRequest env method urlEndpoint resp options w).httpStatus = r.statusCode)) := by
  have hno : ∀ cl req, Event.send cl req ∉ (applyOptions options 0 emptyOption).2 := by
    intro cl req hmem
    have := applyOptions_events options 0 emptyOption _ hmem
    simp [Event.isApply] at this
  have hc := execute_cases env method urlEndpoint resp o w (applyOptions options 0 emptyOption).2
  rw [HTTPRequest_eq_execute env method urlEndpoint resp options w o hdest hconf]
  refine ⟨?_, ?_, ?_, hc.2.2.2⟩
  · intro err hp
    rw [hc.1 err hp]
    exact ⟨rfl, rfl, hno⟩
  · intro parsed err hp he
    rw [hc.2.1 parsed err hp he]
    exact ⟨rfl, rfl, hno⟩
  · intro parsed payload err hp he hn
    rw [hc.2.2.1 parsed payload err hp he hn]
    exact ⟨rfl, rfl, hno⟩

/-- Example for C9: the transport fails; and a URL that does not parse. -/
theorem HTTPRequest_status_zero_witness :
    ((HTTPRequest (stubEnv (Except.error (GoError.external 9)))
      [71, 69, 84] [104, 116, 116, 112, 58, 47, 47, 120] GoAny.nil [] stubWorld).httpStatus = 0 ∧
    (HTTPRequest (stubEnv (Except.error (GoError.external 9)))
      [71, 69, 84] [104, 116, 116, 112, 58, 47, 47, 120] GoAny.nil [] stubWorld).e =
        some (GoError.external 9)) ∧
    ((HTTPRequest (stubEnv (Except.error (GoError.external 9)))
      [71, 69, 84] [58] GoAny.nil [] stubWorld).httpStatus = 0 ∧
    (HTTPRequest (stubEnv (Except.error (GoError.external 9)))
      [71, 69, 84] [58] GoAny.nil [] stubWorld).e = some (GoError.external 1)) :=
  ⟨((HTTPRequest_status_zero (stubEnv (Except.error (GoError.external 9)))
      [71, 69, 84] [104, 116, 116, 112, 58, 47, 47, 120] GoAny.nil [] stubWorld emptyOption
      (Or.inl rfl) rfl).2.2.2
      { rawQuery := [], rest := [104, 116, 116, 112, 58, 47, 47, 120] } [] rfl rfl rfl).2.1
      (GoError.external 9) rfl,
    ⟨((HTTPRequest_status_zero (stubEnv (Except.error (GoError.external 9)))
      [71, 69, 84] [58] GoAny.nil [] stubWorld emptyOption
      (Or.inl rfl) rfl).1 (GoError.external 1) rfl).1,
    ((HTTPRequest_status_zero (stubEnv (Except.error (GoError.external 9)))
      [71, 69, 84] [58] GoAny.nil [] stubWorld emptyOption
      (Or.inl rfl) rfl).1 (GoError.external 1) rfl).2.1⟩⟩

/-! ## Redirect interceptor on the caller's client (C10) -/

/-- C10, as stated, fails when the call ends before the dispatch: with a
caller-supplied client (object 3, no hook) and a redirect interceptor (8) both
configured and a URL that does not parse, the call returns and the caller's
client still has no hook. -/
theorem HTTPRequest_redirect_hook_early_return_counterexample :
    configure [WithCustomHTTPClient (some 3), WithHTTPRedirectIntercept (some 8)] =
      Except.ok { emptyOption with customClient := some 3, redirectInterceptor := some 8 } ∧
    (stubWorld.clients 3).checkRedirect = none ∧
    (HTTPRequest (stubEnv (Except.ok { statusCode := 200, header := [], body := Except.ok [55] }))
      [71, 69, 84] [58] GoAny.nil
      [WithCustomHTTPClient (some 3), WithHTTPRedirectIntercept (some 8)] stubWorld).e =
        some (GoError.external 1) ∧
    ((HTTPRequest (stubEnv (Except.ok { statusCode := 200, header := [], body := Except.ok [55] }))
      [71, 69, 84] [58] GoAny.nil
      [WithCustomHTTPClient (some 3), WithHTTPRedirectIntercept (some 8)]
      stubWorld).world.clients 3).checkRedirect = none :=
  ⟨rfl, rfl, rfl, rfl⟩

/-- C10, amended: when a caller-supplied client `c` and a redirect interceptor
`f` are both configured and the call gets as far as the transport call, the
client used for the request and the caller's own client object after the call
are the caller's client with its redirect hook replaced by `f`, every other
client being untouched; when no redirect interceptor is configured (or an
option fails) every client is left unchanged. -/
theorem HTTPRequest_redirect_hook (env : Env) (method urlEndpoint : Bytes) (resp : GoAny)
    (options : List OptionFunc) (w : World) :
    (∀ o c f cl req,
      configure options = Except.ok o → o.customClient = some c →
      o.redirectInterceptor = some f →
      Event.send cl req ∈ (HTTPRequest env method urlEndpoint resp options w).events →
      cl = { w.clients c with checkRedirect := some f } ∧
      (HTTPRequest env method urlEndpoint resp options w).world.clients c =
        { w.clients c with checkRedirect := some f } ∧
      ∀ x, x ≠ c →
        (HTTPRequest env method urlEndpoint resp options w).world.clients x = w.clients x) ∧
    ((∀ o, configure options = Except.ok o → o.redirectInterceptor = none) →
      (HTTPRequest env method urlEndpoint resp options w).world.clients = w.clients) := by
  constructor
  · intro o c f cl req hconf hc hf hsend
    obtain ⟨_, o2, parsed, payload, h0, _, _, _, _, hcl, heq⟩ :=
      HTTPRequest_send env method urlEndpoint resp options w cl req hsend
    rw [hconf] at h0
    cases h0
    have hclients : (HTTPRequest env method urlEndpoint resp options w).world.clients =
        update w.clients c { w.clients c with checkRedirect := some f } := by
      rw [heq]
      have hw : (worldAtSend env o req w).clients =
          update w.clients c { w.clients c with checkRedirect := some f } := by
        unfold worldAtSend
        rw [storeClient_clients_some o _ c f hc hf, (stepDumpRequest_heap env o req w).2]
      cases env.clientDo cl req with
      | error err => exact hw
      | ok r =>
        simp only
        rw [(handleResponse_status env o resp r _ _).2.1]
        exact hw
    refine ⟨?_, ?_, ?_⟩
    · rw [hcl]
      simp [installRedirect, resolveClient, hc, hf]
    · rw [hclients]
      simp [update]
    · intro x hx
      rw [hclients]
      simp [update, hx]
  · intro hnone
    rcases HTTPRequest_clients env method urlEndpoint resp options w with h | ⟨o, hconf, h⟩
    · exact h
    · rw [h]
      exact storeClient_clients_none o w (hnone o hconf)

/-- Example for C10: the caller's client 3 carries hook 8 after a call that reached the transport. -/
theorem HTTPRequest_redirect_hook_witness :
    ((HTTPRequest (stubEnv (Except.ok { statusCode := 200, header := [], body := Except.ok [55] }))
      [71, 69, 84] [104, 116, 116, 112, 58, 47, 47, 120] GoAny.nil
      [WithCustomHTTPClient (some 3), WithHTTPRedirectIntercept (some 8)]
      stubWorld).world.clients 3) = { checkRedirect := some 8, settings := 1 } :=
  ((HTTPRequest_redirect_hook
    (stubEnv (Except.ok { statusCode := 200, header := [], body := Except.ok [55] }))
    [71, 69, 84] [104, 116, 116, 112, 58, 47, 47, 120] GoAny.nil
    [WithCustomHTTPClient (some 3), WithHTTPRedirectIntercept (some 8)] stubWorld).1
    { emptyOption with customClient := some 3, redirectInterceptor := some 8 } 3 8
    { checkRedirect := some 8, settings := 1 }
    { ctx := Ctx.background, method := [71, 69, 84],
      url := [104, 116, 116, 112, 58, 47, 47, 120], body := [], header := [] }
    rfl rfl rfl (List.mem_of_mem_getLast? rfl)).2.1

/-! ## Query parameters replace the query of the URL (C4) -/

/-- C4: for a URL string that parses and a list of constructor calls holding at
least one `WithQuery`, the URL of the request handed to the transport is the
parsed URL with its query replaced by the canonical encoding of the configured
query map; the pairs of that map are exactly the pairs of the `WithQuery`
calls, so the `key=value` items of the encoding are exactly those of the
configured pairs, and the query embedded in the URL string plays no part. -/
theorem HTTPRequest_query_replaces (env : Env) (method urlEndpoint : Bytes) (resp : GoAny)
    (calls : List Call) (w : World) (parsed : URL) (cl : Client) (req : Request)
    (hquery : ∃ k v, Call.withQuery k v ∈ calls)
    (hparse : env.urlParse urlEndpoint = Except.ok parsed)
    (hsend : Event.send cl req ∈
      (HTTPRequest env method urlEndpoint resp (calls.map (Call.toOption env)) w).events) :
    ∃ q, configuredQuery calls = some q ∧
      (∀ k v, holdsPair q k v ↔ Call.withQuery k v ∈ calls) ∧
      (∀ item, item ∈ encodeItems q ↔
        ∃ k v, Call.withQuery k v ∈ calls ∧ item = queryEscape k ++ [61] ++ queryEscape v) ∧
      req.url = env.urlString { rawQuery := joinAmp (encodeItems q), rest := parsed.rest } := by
  obtain ⟨_, o, parsed2, payload, hconf, hp2, _, _, hreq, _, _⟩ :=
    HTTPRequest_send env method urlEndpoint resp (calls.map (Call.toOption env)) w cl req hsend
  rw [hparse] at hp2
  cases hp2
  have ho := applyOptions_ok _ 0 emptyOption o hconf
  have hoq : o.query = configuredQuery calls := by
    rw [ho, foldSnapshot_query]
    rfl
  obtain ⟨q, hq⟩ := (foldl_stepQuery calls none).1 (Or.inr hquery)
  have hpairs : ∀ k v, holdsPair q k v ↔ Call.withQuery k v ∈ calls := by
    intro k v
    rw [(foldl_stepQuery calls none).2 q hq k v]
    simp [holdsPair]
  refine ⟨q, hq, hpairs, ?_, ?_⟩
  · intro item
    rw [mem_encodeItems]
    constructor
    · rintro ⟨k, v, hp, hitem⟩
      exact ⟨k, v, (hpairs k v).mp hp, hitem⟩
    · rintro ⟨k, v, hp, hitem⟩
      exact ⟨k, v, (hpairs k v).mpr hp, hitem⟩
  · have hoq2 : o.query = some q := by rw [hoq]; exact hq
    rw [hreq]
    simp [buildRequest, setQuery, hoq2, valuesEncode]

/-- Example for C4: `WithQuery(a,1)` and `WithQuery(b,2)` against
`http://x/y?z=9` give the request URL `http://x/y?a=1&b=2`. -/
theorem HTTPRequest_query_replaces_witness :
    (∃ q, configuredQuery [Call.withQuery [97] [49], Call.withQuery [98] [50]] = some q ∧
      (∀ k v, holdsPair q k v ↔
        Call.withQuery k v ∈ [Call.withQuery [97] [49], Call.withQuery [98] [50]]) ∧
      (∀ item, item ∈ encodeItems q ↔
        ∃ k v, Call.withQuery k v ∈ [Call.withQuery [97] [49], Call.withQuery [98] [50]] ∧
          item = queryEscape k ++ [61] ++ queryEscape v) ∧
      ascii "http://x/y?a=1&b=2" =
        stubString { rawQuery := joinAmp (encodeItems q), rest := ascii "http://x/y" }) ∧
    valuesEncode [([97], [[49]]), ([98], [[50]])] = ascii "a=1&b=2" ∧
    stubParse (ascii "http://x/y?z=9") =
      Except.ok { rawQuery := ascii "z=9", rest := ascii "http://x/y" } :=
  ⟨HTTPRequest_query_replaces (stubEnv (Except.error (GoError.external 9))) (ascii "GET")
      (ascii "http://x/y?z=9") GoAny.nil [Call.withQuery [97] [49], Call.withQuery [98] [50]]
      stubWorld { rawQuery := ascii "z=9", rest := ascii "http://x/y" }
      { checkRedirect := none, settings := 0 }
      { ctx := Ctx.background, method := ascii "GET", url := ascii "http://x/y?a=1&b=2",
        body := [], header := [] }
      ⟨[97], [49], List.Mem.head _⟩ rfl (List.mem_of_mem_getLast? rfl),
    by decide, rfl⟩

end Rekuest
